import Mathlib

/-!
Shallow embedding of the leaderboard bot (`index.js`) and proofs about it.

State is modelled per community (guild): the durable `users` rows, the
in-memory `activeVoice` tracker entries and the per-kind leaderboard
config below all belong to one fixed guild, matching the per-guild keying
(`guildId`, `guildId:userId`, `(guildId, type)`) used by the source.

Timestamps are integers: epoch milliseconds everywhere, except the durable
`voiceJoin` column, which the source stores in whole epoch seconds
(`Math.floor(ms / 1000)`).  `Math.floor(x / 1000)` on a possibly negative
integer difference is `Int.fdiv x 1000` (floor division).  Each handler
invocation reads the clock once (`now`), abstracting the source's
individual `Date.now()` / `new Date()` calls inside one handler.
-/

/-- A row of the `users` table:
`users(guildId, userId, username, messages, voiceSeconds, voiceJoin)`,
primary key `(guildId, userId)`; `guildId` is fixed by the model. -/
structure UserRow where
  userId : Nat
  username : String
  messages : Int
  voiceSeconds : Int
  voiceJoin : Option Int
deriving Repr, DecidableEq

/-- A row of the `leaderboards` table for the fixed guild and a fixed kind:
`leaderboards(guildId, type, channelId, messageId, timerMessageId, startAt,
endAt, winnersText, active)`. -/
structure LeaderboardConfig where
  channelId : Nat
  messageId : Option Nat
  timerMessageId : Option Nat
  startAt : Option Int
  endAt : Option Int
  winnersText : Option String
  active : Bool
deriving Repr, DecidableEq

/-- `const RESULTS_PER_PAGE = 10`. -/
def RESULTS_PER_PAGE : Nat := 10

/-- `const LEADERBOARD_TOP = 10`. -/
def LEADERBOARD_TOP : Nat := 10

/-- `const WEEK_MS = 7 * 24 * 60 * 60 * 1000` (production weekly cycle). -/
def WEEK_MS : Int := 7 * 24 * 60 * 60 * 1000

/-- `const TEST_MS = 4 * 60 * 1000` (4-minute test duration used by
`/setleaderboard`). -/
def TEST_MS : Int := 4 * 60 * 1000

/-- Semantics of `SELECT * FROM users WHERE guildId = ? AND userId = ?`
(`stmtGetUser`) on the fixed guild's row list. -/
def getRow (users : List UserRow) (u : Nat) : Option UserRow :=
  users.find? (fun r => r.userId == u)

/-- Semantics of `UPDATE users SET ... WHERE guildId = @g AND userId = @u`:
apply `g` to every row of user `u`. -/
def updRows (users : List UserRow) (u : Nat) (g : UserRow → UserRow) : List UserRow :=
  users.map (fun r => if r.userId == u then g r else r)

/-- `stmtUpsertUser`: `INSERT INTO users (guildId,userId,username) VALUES ...
ON CONFLICT(guildId,userId) DO UPDATE SET username = excluded.username`.
A fresh row gets the column defaults `messages = 0`, `voiceSeconds = 0`,
`voiceJoin = NULL`. -/
def stmtUpsertUser (users : List UserRow) (u : Nat) (n : String) : List UserRow :=
  if users.any (fun r => r.userId == u) then
    updRows users u (fun r => { r with username := n })
  else
    users ++ [{ userId := u, username := n, messages := 0, voiceSeconds := 0, voiceJoin := none }]

/-- `stmtIncMessage`: `UPDATE users SET messages = messages + 1 WHERE ...`. -/
def stmtIncMessage (users : List UserRow) (u : Nat) : List UserRow :=
  updRows users u (fun r => { r with messages := r.messages + 1 })

/-- `stmtAddVoiceSeconds`:
`UPDATE users SET voiceSeconds = voiceSeconds + @inc, voiceJoin = NULL WHERE ...`. -/
def stmtAddVoiceSeconds (users : List UserRow) (u : Nat) (inc : Int) : List UserRow :=
  updRows users u (fun r => { r with voiceSeconds := r.voiceSeconds + inc, voiceJoin := none })

/-- `stmtSetVoiceJoin`: `UPDATE users SET voiceJoin = @start WHERE ...`. -/
def stmtSetVoiceJoin (users : List UserRow) (u : Nat) (start : Option Int) : List UserRow :=
  updRows users u (fun r => { r with voiceJoin := start })

/-- `stmtResetCountsMessages`: `UPDATE users SET messages = 0 WHERE guildId = ?`
(every row of the guild). -/
def stmtResetCountsMessages (users : List UserRow) : List UserRow :=
  users.map (fun r => { r with messages := 0 })

/-- `stmtResetCountsVoice`:
`UPDATE users SET voiceSeconds = 0, voiceJoin = NULL WHERE guildId = ?`. -/
def stmtResetCountsVoice (users : List UserRow) : List UserRow :=
  users.map (fun r => { r with voiceSeconds := 0, voiceJoin := none })

/-- `stmtGetTopMessages`: `SELECT * FROM users WHERE guildId = ?
ORDER BY messages DESC LIMIT ?`.  Modelled with a stable descending sort. -/
def stmtGetTopMessages (users : List UserRow) (limit : Nat) : List UserRow :=
  (users.mergeSort (fun a b => decide (b.messages ≤ a.messages))).take limit

/-- `stmtGetTopVoice`: `SELECT * FROM users WHERE guildId = ?
ORDER BY voiceSeconds DESC LIMIT ?`. -/
def stmtGetTopVoice (users : List UserRow) (limit : Nat) : List UserRow :=
  (users.mergeSort (fun a b => decide (b.voiceSeconds ≤ a.voiceSeconds))).take limit

/-- The in-memory `activeVoice` map, restricted to the fixed guild:
association list `userId ↦ session start (epoch ms)`.  JS `Map` iteration
order (insertion order, in-place update on `set` of an existing key) is
mirrored. -/
def trackerGet (tr : List (Nat × Int)) (u : Nat) : Option Int :=
  (tr.find? (fun p => p.1 == u)).map (fun p => p.2)

/-- `activeVoice.set(key, v)`: replace in place, or append a new entry. -/
def trackerSet (tr : List (Nat × Int)) (u : Nat) (v : Int) : List (Nat × Int) :=
  if tr.any (fun p => p.1 == u) then
    tr.map (fun p => if p.1 == u then (u, v) else p)
  else
    tr ++ [(u, v)]

/-- `activeVoice.delete(key)`. -/
def trackerDel (tr : List (Nat × Int)) (u : Nat) : List (Nat × Int) :=
  tr.filter (fun p => p.1 != u)

/-- Column projection helpers over `getRow` (missing row reads as the
SQL default / `NULL`). -/
def getMessages (users : List UserRow) (u : Nat) : Int :=
  ((getRow users u).map (fun r => r.messages)).getD 0

/-- `voiceSeconds` of user `u`, 0 when the row is missing. -/
def getVoiceSeconds (users : List UserRow) (u : Nat) : Int :=
  ((getRow users u).map (fun r => r.voiceSeconds)).getD 0

/-- `voiceJoin` of user `u`, `NULL` when the row is missing. -/
def getVoiceJoin (users : List UserRow) (u : Nat) : Option Int :=
  (getRow users u).bind (fun r => r.voiceJoin)

/-- `username` of user `u`. -/
def getUsername (users : List UserRow) (u : Nat) : Option String :=
  (getRow users u).map (fun r => r.username)

/-! ### Ranking engine (`buildLeaderboardEmbed` / `finalizeAndResetLeaderboard` /
`buildClassementPaginated` all compute the candidate rows the same way) -/

/-- The two leaderboard kinds, `type ∈ {message, vocal}` in the source. -/
inductive LBKind where
  | message
  | vocal
deriving Repr, DecidableEq

/-- A voice candidate row after the open-session adjustment:
`{ ...r, totalSeconds: total }`. -/
structure VoiceRanked where
  row : UserRow
  totalSeconds : Int
deriving Repr, DecidableEq

/-- The per-row voice adjustment:
```
let total = r.voiceSeconds || 0;
if (activeVoice.has(key)) total += Math.floor((Date.now()-activeVoice.get(key))/1000);
else if (r.voiceJoin) total += Math.floor((Date.now()-r.voiceJoin*1000)/1000);
```
`r.voiceJoin` is JS-truthy exactly when it is non-null and non-zero. -/
def adjustVoiceRow (tr : List (Nat × Int)) (now : Int) (r : UserRow) : VoiceRanked :=
  let total : Int :=
    match trackerGet tr r.userId with
    | some s => r.voiceSeconds + (now - s).fdiv 1000
    | none =>
      match r.voiceJoin with
      | some j => if j = 0 then r.voiceSeconds else r.voiceSeconds + (now - j * 1000).fdiv 1000
      | none => r.voiceSeconds
  { row := r, totalSeconds := total }

/-- Voice candidate rows: top 100 by durable `voiceSeconds`, each adjusted by
the open-session elapsed time, then re-sorted descending by the adjusted
total (`.sort((a,b) => (b.totalSeconds||0)-(a.totalSeconds||0))`, a stable
sort as mandated for `Array.prototype.sort`). -/
def voiceLeaderboardRows (users : List UserRow) (tr : List (Nat × Int)) (now : Int) :
    List VoiceRanked :=
  ((stmtGetTopVoice users 100).map (adjustVoiceRow tr now)).mergeSort
    (fun a b => decide (b.totalSeconds ≤ a.totalSeconds))

/-- Message candidate rows: `stmtGetTopMessages.all(guildId, 100)`. -/
def messageLeaderboardRows (users : List UserRow) : List UserRow :=
  stmtGetTopMessages users 100

/-- The candidate rows used by `buildLeaderboardEmbed`, `buildClassementPaginated`
and `finalizeAndResetLeaderboard` for a kind.  For `message` the source rows
carry no `totalSeconds` field (it is never read); the model fills 0. -/
def rankRows (kind : LBKind) (users : List UserRow) (tr : List (Nat × Int)) (now : Int) :
    List VoiceRanked :=
  match kind with
  | .message => (messageLeaderboardRows users).map (fun r => { row := r, totalSeconds := 0 })
  | .vocal => voiceLeaderboardRows users tr now

/-! ### Render helpers -/

/-- `formatDHMS(totalSec)`: clamp at 0 and decompose into days / hours /
minutes / seconds (French labels in the source; glyph-identical text is
irrelevant to every claim, the numeric decomposition is kept exact). -/
def formatDHMS (totalSec : Int) : String :=
  let t : Int := max 0 totalSec
  let days := t.fdiv 86400
  let t1 := t % 86400
  let hours := t1.fdiv 3600
  let t2 := t1 % 3600
  let minutes := t2.fdiv 60
  let seconds := t2 % 60
  toString days ++ " jours, " ++ toString hours ++ " heures, " ++
    toString minutes ++ " minutes, " ++ toString seconds ++ " secondes"

/-- `fmtNumber(n)`: `toLocaleString('en-US')`, thousands separated by commas. -/
def fmtNumber (n : Int) : String :=
  let rec group : List Char → List Char
    | c1 :: c2 :: c3 :: c4 :: rest => c1 :: c2 :: c3 :: ',' :: group (c4 :: rest)
    | l => l
  let digits := (toString n.natAbs).toList.reverse
  (if n < 0 then "-" else "") ++ String.mk ((group digits).reverse)

/-- `MEDALS = ['(1)','(2)','(3)']` (emoji medal markers in the source). -/
def MEDALS : List String := ["(1)", "(2)", "(3)"]

/-- One winners line of `finalizeAndResetLeaderboard`:
`` `${m} <@${d.userId}> — \`${...}\`` `` with the medal for ranks 0-2 and
`'•'` beyond. -/
def winnerLine (kind : LBKind) (i : Nat) (d : VoiceRanked) : String :=
  let m := (MEDALS.drop i).headD "•"
  match kind with
  | .message => m ++ " <@" ++ toString d.row.userId ++ "> — " ++ fmtNumber d.row.messages ++ " messages"
  | .vocal => m ++ " <@" ++ toString d.row.userId ++ "> — " ++ formatDHMS d.totalSeconds

/-- The winners text persisted by finalize: top-3 lines joined by newlines. -/
def finalizeWinnersText (kind : LBKind) (users : List UserRow) (tr : List (Nat × Int))
    (now : Int) : String :=
  String.intercalate "\n"
    (((rankRows kind users tr now).take 3).enum.map (fun p => winnerLine kind p.1 p.2))

/-! ### Event handlers -/

/-- The mutable per-guild state: the guild's durable `users` rows, its
`activeVoice` entries, and (per fixed kind) its `leaderboards` row. -/
structure GuildState where
  users : List UserRow
  tracker : List (Nat × Int)
  config : Option LeaderboardConfig
deriving Repr, DecidableEq

/-- A `messageCreate` gateway event as seen by the handler. -/
structure MessageEvent where
  inGuild : Bool
  bot : Bool
  author : Nat
  name : String
deriving Repr, DecidableEq

/-- The `messageCreate` handler:
`if (!msg.guild || msg.author.bot) return;` then upsert identity and
increment the counter (the debounced re-render has no store effect). -/
def messageCreate (ev : MessageEvent) (st : GuildState) : GuildState :=
  if !ev.inGuild || ev.bot then st
  else { st with users := stmtIncMessage (stmtUpsertUser st.users ev.author ev.name) ev.author }

/-- An event qualifies for counting exactly when its author is not a bot and
it happens inside a guild. -/
def qualifies (ev : MessageEvent) : Bool :=
  ev.inGuild && !ev.bot

/-- A `voiceStateUpdate` transition for one user, as classified by the
handler's three branches.  `now` is the handler's clock reading;
`jts` is `o.joinedTimestamp` (epoch ms), the fallback session start used
when the tracker lacks the entry (JS-truthy: non-null and non-zero). -/
inductive VoiceEvent where
  | join (now : Int)
  | move (now : Int) (jts : Option Int)
  | leave (now : Int) (jts : Option Int)
deriving Repr, DecidableEq

/-- `activeVoice.get(key) || (o.joinedTimestamp ? new Date(o.joinedTimestamp) : null)`:
the tracker value (a `Date`, always truthy) wins; otherwise `jts` if truthy. -/
def sessionStartFallback (tr : List (Nat × Int)) (u : Nat) (jts : Option Int) : Option Int :=
  match trackerGet tr u with
  | some s => some s
  | none =>
    match jts with
    | some t => if t = 0 then none else some t
    | none => none

/-- The `voiceStateUpdate` handler for a non-bot member (`bot` short-circuits
first, mirroring `if (n.member?.user.bot) return;`). -/
def voiceStateUpdate (bot : Bool) (u : Nat) (name : String) (ev : VoiceEvent)
    (st : GuildState) : GuildState :=
  if bot then st
  else
    match ev with
    | .join now =>
      { st with
        tracker := trackerSet st.tracker u now,
        users := stmtSetVoiceJoin (stmtUpsertUser st.users u name) u (some (now.fdiv 1000)) }
    | .move now jts =>
      let users1 :=
        match sessionStartFallback st.tracker u jts with
        | some s => stmtAddVoiceSeconds st.users u ((now - s).fdiv 1000)
        | none => st.users
      { st with
        tracker := trackerSet st.tracker u now,
        users := stmtSetVoiceJoin users1 u (some (now.fdiv 1000)) }
    | .leave now jts =>
      let users1 :=
        match sessionStartFallback st.tracker u jts with
        | some s => stmtAddVoiceSeconds st.users u ((now - s).fdiv 1000)
        | none => st.users
      { st with
        tracker := trackerDel st.tracker u,
        users := stmtSetVoiceJoin users1 u none }

/-- Startup reconciliation of one currently-connected non-bot participant
(`client.once('ready')` body, inner loop): if the durable `voiceJoin` is
truthy, trust it as the session start (seconds, converted back to ms by the
`* 1000` fix); otherwise open a fresh session at `now` and persist it. -/
def readyUserReconcile (now : Int) (st : GuildState) (p : Nat × String) : GuildState :=
  match (getRow st.users p.1).bind (fun r => r.voiceJoin) with
  | some j =>
    if j = 0 then
      { st with
        tracker := trackerSet st.tracker p.1 now,
        users := stmtSetVoiceJoin (stmtUpsertUser st.users p.1 p.2) p.1 (some (now.fdiv 1000)) }
    else
      { st with tracker := trackerSet st.tracker p.1 (j * 1000) }
  | none =>
    { st with
      tracker := trackerSet st.tracker p.1 now,
      users := stmtSetVoiceJoin (stmtUpsertUser st.users p.1 p.2) p.1 (some (now.fdiv 1000)) }

/-- Startup reconciliation over all currently-connected non-bot participants
of the guild (`connected` lists `(userId, displayName)` pairs).  The
in-memory tracker of a freshly started process is empty. -/
def readyReconcile (connected : List (Nat × String)) (now : Int) (st : GuildState) :
    GuildState :=
  connected.foldl (readyUserReconcile now) st

/-! ### Publishing, finalize, setup, pagination -/

/-- Platform responses relevant to one publish/finalize pass:
whether the configured channel can be fetched and is text-based, whether
fetching the stored leaderboard message succeeds, whether the in-place edit
succeeds, and the id the platform would assign to a newly sent message. -/
structure PlatformEnv where
  channelOk : Bool
  msgFetchOk : Bool
  editOk : Bool
  sentId : Nat
deriving Repr, DecidableEq

/-- Result of one publish action. -/
inductive PublishOutcome where
  | edited
  | editFailed
  | sentNew (id : Nat)
  | skipped
deriving Repr, DecidableEq

/-- The edit-or-send step shared by `doLeaderboardUpdate` and
`finalizeAndResetLeaderboard`: with a stored message id, fetch it; on fetch
success attempt the edit (an edit failure is swallowed / caught and nothing
more happens); on fetch failure, or with no stored id, send a new message
and persist its id (`stmtUpdateLeaderboardMessage`). -/
def editOrSendPersist (env : PlatformEnv) (mid : Option Nat) : Option Nat × PublishOutcome :=
  match mid with
  | some m =>
    if env.msgFetchOk then (some m, if env.editOk then .edited else .editFailed)
    else (some env.sentId, .sentNew env.sentId)
  | none => (some env.sentId, .sentNew env.sentId)

/-- `doLeaderboardUpdate(gid, type)` restricted to its observable effect on
the config row: skip when no active config or no usable channel, otherwise
apply the edit-or-send publish step. -/
def doLeaderboardUpdate (env : PlatformEnv) (cfg : Option LeaderboardConfig) :
    Option LeaderboardConfig × PublishOutcome :=
  match cfg with
  | none => (none, .skipped)
  | some c =>
    if !c.active then (some c, .skipped)
    else if !env.channelOk then (some c, .skipped)
    else
      let r := editOrSendPersist env c.messageId
      (some { c with messageId := r.1 }, r.2)

/-- `finalizeAndResetLeaderboard(gid, type)` at clock reading `now`.
Returns the new state; `none`-config and non-text-channel guards return the
state unchanged before any write.  The mid-finalize publish may persist a
new message id (`finalizeMidPublishId`), but the closing
`stmtUpsertLeaderboard` rewrites the row from the `cfg` snapshot taken at
entry, so the final row carries the snapshot's `messageId`. -/
def finalizeAndResetLeaderboard (env : PlatformEnv) (kind : LBKind) (now : Int)
    (st : GuildState) : GuildState :=
  match st.config with
  | none => st
  | some cfg =>
    if !env.channelOk then st
    else
      let winnersText := finalizeWinnersText kind st.users st.tracker now
      let users1 :=
        match kind with
        | .message => stmtResetCountsMessages st.users
        | .vocal => stmtResetCountsVoice st.users
      let users2 :=
        match kind with
        | .message => users1
        | .vocal =>
          st.tracker.foldl (fun us p => stmtSetVoiceJoin us p.1 (some (now.fdiv 1000))) users1
      let tracker1 :=
        match kind with
        | .message => st.tracker
        | .vocal => st.tracker.map (fun p => (p.1, now))
      { users := users2,
        tracker := tracker1,
        config := some
          { channelId := cfg.channelId,
            messageId := cfg.messageId,
            timerMessageId := cfg.timerMessageId,
            startAt := some now,
            endAt := some (now + WEEK_MS),
            winnersText := some winnersText,
            active := true } }

/-- The message id the mid-finalize publish leaves in the row just before
the closing upsert overwrites it (fetch failure or a missing id re-sends). -/
def finalizeMidPublishId (env : PlatformEnv) (cfg : LeaderboardConfig) : Option Nat :=
  (editOrSendPersist env cfg.messageId).1

/-- The sweep condition of `processLeaderboardsExpiry` for one active config:
`lb.endAt && Date.now() >= lb.endAt`. -/
def sweepTriggers (cfg : LeaderboardConfig) (now : Int) : Bool :=
  cfg.active && (match cfg.endAt with
                 | some e => !(e = 0) && decide (now ≥ e)
                 | none => false)

/-- `/setleaderboard` (owner path, valid channel): upsert the config with a
fresh test-length cycle, then persist the countdown message id and the
initial leaderboard message id. -/
def setleaderboardRun (channelId : Nat) (now : Int) (timerId : Nat) (sentId : Nat) :
    LeaderboardConfig :=
  { channelId := channelId,
    messageId := some sentId,
    timerMessageId := some timerId,
    startAt := some now,
    endAt := some (now + TEST_MS),
    winnersText := none,
    active := true }

/-- `buildClassementPaginated` paging:
`pages = Math.max(1, Math.ceil(rows.length / RESULTS_PER_PAGE))` (for a
natural count, `ceil(n/k) = (n + k - 1) / k`). -/
def pageCountOf (n : Nat) : Nat :=
  max 1 ((n + RESULTS_PER_PAGE - 1) / RESULTS_PER_PAGE)

/-- `safe = Math.min(Math.max(1, page), pages)`. -/
def clampPage (page : Int) (pages : Nat) : Nat :=
  (min (max 1 page) (pages : Int)).toNat

/-- The served slice: `rows.slice(start, start + RESULTS_PER_PAGE)` with
`start = (safe - 1) * RESULTS_PER_PAGE`. -/
def buildClassementPaginated (rows : List VoiceRanked) (page : Int) :
    List VoiceRanked × Nat × Nat :=
  let pages := pageCountOf rows.length
  let safe := clampPage page pages
  ((rows.drop ((safe - 1) * RESULTS_PER_PAGE)).take RESULTS_PER_PAGE, safe, pages)

/-- Button navigation (`interactionCreate`, `classe_prev`/`classe_next`):
`page = prev ? Math.max(1, page-1) : page+1`. -/
def navButtonPage (isPrev : Bool) (page : Int) : Int :=
  if isPrev then max 1 (page - 1) else page + 1

/-! ### Voice sequences (C2) -/

/-- A join → moves → leave scenario for one user: join at `t0`, in-guild
channel moves at the times in `ts`, leave at `tEnd` (no fallback
timestamps are needed: the tracker holds the entry throughout). -/
def voiceEventSeq (t0 : Int) (ts : List Int) (tEnd : Int) : List VoiceEvent :=
  VoiceEvent.join t0 ::
    (ts.map (fun t => VoiceEvent.move t none) ++ [VoiceEvent.leave tEnd none])

/-- Run a list of voice events for one (non-bot) user through the
`voiceStateUpdate` handler. -/
def runVoiceEvents (u : Nat) (name : String) (events : List VoiceEvent)
    (st : GuildState) : GuildState :=
  events.foldl (fun s e => voiceStateUpdate false u name e s) st

/-- Sum of the per-segment whole-second flushes of a session with
boundaries `prev :: ts ++ [tEnd]`: each segment is floored to seconds
separately, exactly as `stmtAddVoiceSeconds` receives it. -/
def segFloorSum : Int → List Int → Int → Int
  | prev, [], tEnd => (tEnd - prev).fdiv 1000
  | prev, t :: ts, tEnd => (t - prev).fdiv 1000 + segFloorSum t ts tEnd

/-- Placeholder row used as the out-of-range default when indexing a
ranking snapshot (never an actual result of the ranking). -/
def defaultRanked : VoiceRanked :=
  { row := { userId := 0, username := "", messages := 0, voiceSeconds := 0, voiceJoin := none },
    totalSeconds := 0 }

/-! ### The tracker/store correspondence invariant (C6) -/

/-- The invariant at one user: the durable `voiceJoin` is non-null exactly
when the tracker holds an open session for the user, and then the stored
epoch (whole seconds) is the tracker's session start (ms) floored to
seconds — the same instant at the store's second granularity. -/
def invariantAt (st : GuildState) (u : Nat) : Prop :=
  ((getVoiceJoin st.users u).isSome ↔ (trackerGet st.tracker u).isSome)
  ∧ (∀ j s : Int, getVoiceJoin st.users u = some j → trackerGet st.tracker u = some s →
      j = s.fdiv 1000)

/-- The spec's invariant, quantified over all users of the guild. -/
def voiceInvariant (st : GuildState) : Prop :=
  ∀ u, invariantAt st u

/-! ### Basic lemmas about the store and tracker operations -/

theorem getRow_updRows_self (users : List UserRow) (u : Nat) (g : UserRow → UserRow)
    (hg : ∀ r, (g r).userId = r.userId) :
    getRow (updRows users u g) u = (getRow users u).map g := by
  induction users with
  | nil => rfl
  | cons r rs ih =>
    simp only [updRows, List.map_cons, getRow, List.find?_cons] at *
    cases h : (r.userId == u) with
    | true =>
      simp only [hg, h, if_true]
      rfl
    | false =>
      simp only [hg, h, Bool.false_eq_true, if_false]
      exact ih

theorem getRow_updRows_ne (users : List UserRow) (u v : Nat) (g : UserRow → UserRow)
    (hg : ∀ r, (g r).userId = r.userId) (hne : v ≠ u) :
    getRow (updRows users u g) v = getRow users v := by
  induction users with
  | nil => rfl
  | cons r rs ih =>
    simp only [updRows, List.map_cons, getRow, List.find?_cons] at *
    cases h : (r.userId == u) with
    | true =>
      have hru : r.userId = u := by simpa using h
      have h2 : (r.userId == v) = false := by
        rw [beq_eq_false_iff_ne, hru]
        exact fun hh => hne hh.symm
      simp only [hg, h, h2, if_true]
      exact ih
    | false =>
      cases hv : (r.userId == v) with
      | true => simp only [h, hv, Bool.false_eq_true, if_false]
      | false =>
        simp only [h, hv, Bool.false_eq_true, if_false]
        exact ih

theorem getRow_append_single (users : List UserRow) (r : UserRow) (v : Nat) :
    getRow (users ++ [r]) v =
      (getRow users v).orElse (fun _ => if r.userId == v then some r else none) := by
  induction users with
  | nil =>
    simp only [getRow, List.nil_append, List.find?_cons, List.find?_nil]
    cases h : (r.userId == v) with
    | true => simp [h]
    | false => simp [h]
  | cons s rs ih =>
    simp only [getRow, List.cons_append, List.find?_cons] at *
    cases h : (s.userId == v) with
    | true =>
      simp only [h]
      rfl
    | false =>
      simp only [h]
      exact ih

theorem getRow_upsert_self (users : List UserRow) (u : Nat) (n : String) :
    getRow (stmtUpsertUser users u n) u =
      some (match getRow users u with
            | some r => { r with username := n }
            | none => { userId := u, username := n, messages := 0, voiceSeconds := 0, voiceJoin := none }) := by
  unfold stmtUpsertUser
  by_cases h : (users.any (fun r => r.userId == u)) = true
  · rw [if_pos h, getRow_updRows_self users u (fun r => { r with username := n }) (fun _ => rfl)]
    have hsome : (users.find? (fun r => r.userId == u)).isSome := by
      rw [List.find?_isSome]
      obtain ⟨r, hr, hru⟩ := List.any_eq_true.mp h
      exact ⟨r, hr, hru⟩
    obtain ⟨x, hx⟩ := Option.isSome_iff_exists.mp hsome
    have hx' : getRow users u = some x := hx
    rw [hx']
    rfl
  · rw [if_neg h]
    have hnone : getRow users u = none := by
      rw [getRow, List.find?_eq_none]
      intro r hr hru
      exact h (List.any_eq_true.mpr ⟨r, hr, hru⟩)
    rw [getRow_append_single, hnone]
    simp

theorem getRow_upsert_ne (users : List UserRow) (u v : Nat) (n : String) (hne : v ≠ u) :
    getRow (stmtUpsertUser users u n) v = getRow users v := by
  unfold stmtUpsertUser
  by_cases h : (users.any (fun r => r.userId == u)) = true
  · rw [if_pos h]
    exact getRow_updRows_ne users u v _ (fun _ => rfl) hne
  · rw [if_neg h, getRow_append_single]
    have hb : (({ userId := u, username := n, messages := 0, voiceSeconds := 0, voiceJoin := none : UserRow }).userId == v) = false := by
      rw [beq_eq_false_iff_ne]
      exact fun hh => hne hh.symm
    rw [hb]
    cases hr : getRow users v <;> simp [hr]

theorem getRow_isSome_upsert_self (users : List UserRow) (u : Nat) (n : String) :
    (getRow (stmtUpsertUser users u n) u).isSome := by
  rw [getRow_upsert_self]; rfl

theorem getRow_map_all (users : List UserRow) (v : Nat) (g : UserRow → UserRow)
    (hg : ∀ r, (g r).userId = r.userId) :
    getRow (users.map g) v = (getRow users v).map g := by
  induction users with
  | nil => rfl
  | cons r rs ih =>
    simp only [getRow, List.map_cons, List.find?_cons] at *
    cases h : (r.userId == v) with
    | true =>
      simp only [hg, h]
      rfl
    | false =>
      simp only [hg, h]
      exact ih

theorem getRow_setVoiceJoin_self (users : List UserRow) (u : Nat) (s : Option Int) :
    getRow (stmtSetVoiceJoin users u s) u = (getRow users u).map (fun r => { r with voiceJoin := s }) :=
  getRow_updRows_self users u _ (fun _ => rfl)

theorem getRow_setVoiceJoin_ne (users : List UserRow) (u v : Nat) (s : Option Int) (hne : v ≠ u) :
    getRow (stmtSetVoiceJoin users u s) v = getRow users v :=
  getRow_updRows_ne users u v _ (fun _ => rfl) hne

theorem getRow_addVoiceSeconds_self (users : List UserRow) (u : Nat) (inc : Int) :
    getRow (stmtAddVoiceSeconds users u inc) u =
      (getRow users u).map (fun r => { r with voiceSeconds := r.voiceSeconds + inc, voiceJoin := none }) :=
  getRow_updRows_self users u _ (fun _ => rfl)

theorem getRow_addVoiceSeconds_ne (users : List UserRow) (u v : Nat) (inc : Int) (hne : v ≠ u) :
    getRow (stmtAddVoiceSeconds users u inc) v = getRow users v :=
  getRow_updRows_ne users u v _ (fun _ => rfl) hne

theorem getRow_incMessage_self (users : List UserRow) (u : Nat) :
    getRow (stmtIncMessage users u) u = (getRow users u).map (fun r => { r with messages := r.messages + 1 }) :=
  getRow_updRows_self users u _ (fun _ => rfl)

theorem getRow_incMessage_ne (users : List UserRow) (u v : Nat) (hne : v ≠ u) :
    getRow (stmtIncMessage users u) v = getRow users v :=
  getRow_updRows_ne users u v _ (fun _ => rfl) hne

theorem getRow_resetMessages (users : List UserRow) (v : Nat) :
    getRow (stmtResetCountsMessages users) v = (getRow users v).map (fun r => { r with messages := 0 }) :=
  getRow_map_all users v _ (fun _ => rfl)

theorem getRow_resetVoice (users : List UserRow) (v : Nat) :
    getRow (stmtResetCountsVoice users) v =
      (getRow users v).map (fun r => { r with voiceSeconds := 0, voiceJoin := none }) :=
  getRow_map_all users v _ (fun _ => rfl)

/-! ### Tracker lemmas -/

theorem trackerGet_mapSet_self (tr : List (Nat × Int)) (u : Nat) (v : Int) :
    trackerGet (tr.map (fun p => if p.1 == u then (u, v) else p)) u =
      (trackerGet tr u).map (fun _ => v) := by
  induction tr with
  | nil => rfl
  | cons p ps ih =>
    simp only [trackerGet, List.map_cons, List.find?_cons] at *
    cases h : (p.1 == u) with
    | true => simp [h]
    | false =>
      simp only [h, Bool.false_eq_true, if_false]
      exact ih

theorem trackerGet_mapSet_ne (tr : List (Nat × Int)) (u w : Nat) (v : Int) (hne : w ≠ u) :
    trackerGet (tr.map (fun p => if p.1 == u then (u, v) else p)) w = trackerGet tr w := by
  induction tr with
  | nil => rfl
  | cons p ps ih =>
    simp only [trackerGet, List.map_cons, List.find?_cons] at *
    cases h : (p.1 == u) with
    | true =>
      have h2 : (p.1 == w) = false := by
        rw [beq_eq_false_iff_ne, (by simpa using h : p.1 = u)]
        exact fun hh => hne hh.symm
      have h3 : (u == w) = false := by
        rw [beq_eq_false_iff_ne]
        exact fun hh => hne hh.symm
      simp only [h, h2, h3, if_true, Bool.false_eq_true, if_false]
      exact ih
    | false =>
      simp only [h, Bool.false_eq_true, if_false]
      cases hw : (p.1 == w) with
      | true => simp [hw]
      | false =>
        simp only [hw, Bool.false_eq_true, if_false]
        exact ih

theorem trackerGet_append_single (tr : List (Nat × Int)) (u w : Nat) (v : Int) :
    trackerGet (tr ++ [(u, v)]) w =
      (trackerGet tr w).orElse (fun _ => if u == w then some v else none) := by
  induction tr with
  | nil =>
    simp only [trackerGet, List.nil_append, List.find?_cons, List.find?_nil]
    cases h : (u == w) with
    | true => simp [h]
    | false => simp [h]
  | cons p ps ih =>
    simp only [trackerGet, List.cons_append, List.find?_cons] at *
    cases h : (p.1 == w) with
    | true => simp [h]
    | false =>
      simp only [h, Bool.false_eq_true, if_false]
      exact ih

theorem trackerGet_none_of_not_any (tr : List (Nat × Int)) (u : Nat)
    (h : ¬ (tr.any (fun p => p.1 == u)) = true) :
    trackerGet tr u = none := by
  rw [trackerGet]
  have : tr.find? (fun p => p.1 == u) = none := by
    rw [List.find?_eq_none]
    intro p hp hpu
    exact h (List.any_eq_true.mpr ⟨p, hp, hpu⟩)
  rw [this]
  rfl

theorem trackerGet_set_self (tr : List (Nat × Int)) (u : Nat) (v : Int) :
    trackerGet (trackerSet tr u v) u = some v := by
  unfold trackerSet
  by_cases h : (tr.any (fun p => p.1 == u)) = true
  · rw [if_pos h, trackerGet_mapSet_self]
    have hsome : (tr.find? (fun p => p.1 == u)).isSome := by
      rw [List.find?_isSome]
      exact List.any_eq_true.mp h
    obtain ⟨x, hx⟩ := Option.isSome_iff_exists.mp hsome
    have hx' : trackerGet tr u = some x.2 := by
      rw [trackerGet, hx]
      rfl
    rw [hx']
    rfl
  · rw [if_neg h, trackerGet_append_single, trackerGet_none_of_not_any tr u h]
    simp

theorem trackerGet_set_ne (tr : List (Nat × Int)) (u w : Nat) (v : Int) (hne : w ≠ u) :
    trackerGet (trackerSet tr u v) w = trackerGet tr w := by
  unfold trackerSet
  by_cases h : (tr.any (fun p => p.1 == u)) = true
  · rw [if_pos h]
    exact trackerGet_mapSet_ne tr u w v hne
  · rw [if_neg h, trackerGet_append_single]
    have h3 : (u == w) = false := by
      rw [beq_eq_false_iff_ne]
      exact fun hh => hne hh.symm
    rw [h3]
    cases hw : trackerGet tr w <;> simp [hw]

theorem trackerGet_del_self (tr : List (Nat × Int)) (u : Nat) :
    trackerGet (trackerDel tr u) u = none := by
  rw [trackerGet]
  have : (trackerDel tr u).find? (fun p => p.1 == u) = none := by
    rw [List.find?_eq_none]
    intro p hp
    have := List.mem_filter.mp hp
    simpa using this.2
  rw [this]
  rfl

theorem trackerGet_del_ne (tr : List (Nat × Int)) (u w : Nat) (hne : w ≠ u) :
    trackerGet (trackerDel tr u) w = trackerGet tr w := by
  induction tr with
  | nil => rfl
  | cons p ps ih =>
    simp only [trackerGet, trackerDel, List.filter] at *
    cases h : (p.1 != u) with
    | true =>
      simp only [List.find?_cons]
      cases hw : (p.1 == w) with
      | true => simp [hw]
      | false =>
        simp only [hw, Bool.false_eq_true, if_false]
        exact ih
    | false =>
      have hpu : p.1 = u := by simpa using h
      have hw : (p.1 == w) = false := by
        rw [beq_eq_false_iff_ne, hpu]
        exact fun hh => hne hh.symm
      simp only [List.find?_cons, hw, Bool.false_eq_true, if_false]
      exact ih

theorem trackerGet_reanchor (tr : List (Nat × Int)) (u : Nat) (now : Int) :
    trackerGet (tr.map (fun p => (p.1, now))) u = (trackerGet tr u).map (fun _ => now) := by
  induction tr with
  | nil => rfl
  | cons p ps ih =>
    simp only [trackerGet, List.map_cons, List.find?_cons] at *
    cases h : (p.1 == u) with
    | true => simp [h]
    | false =>
      simp only [h, Bool.false_eq_true, if_false]
      exact ih

/-! ### Finalize: frame and guard properties -/

theorem finalize_config_eq (env : PlatformEnv) (kind : LBKind) (now : Int)
    (st : GuildState) (cfg : LeaderboardConfig)
    (hcfg : st.config = some cfg) (hch : env.channelOk = true) :
    (finalizeAndResetLeaderboard env kind now st).config =
      some { channelId := cfg.channelId,
             messageId := cfg.messageId,
             timerMessageId := cfg.timerMessageId,
             startAt := some now,
             endAt := some (now + WEEK_MS),
             winnersText := some (finalizeWinnersText kind st.users st.tracker now),
             active := true } := by
  unfold finalizeAndResetLeaderboard
  rw [hcfg]
  simp [hch]

/-- C9: if the configured channel cannot be fetched or is not text-based
(or the config row is missing), finalize returns before performing any
state change: users, tracker and config are all untouched, so the expired
config stays as it was and later sweeps will see it again. -/
theorem finalize_unusable_channel_is_noop (env : PlatformEnv) (kind : LBKind) (now : Int)
    (st : GuildState) (h : env.channelOk = false) :
    finalizeAndResetLeaderboard env kind now st = st := by
  unfold finalizeAndResetLeaderboard
  cases hc : st.config with
  | none => rfl
  | some cfg => simp [h]

theorem finalize_unusable_channel_is_noop_witness :
    ({ channelOk := false, msgFetchOk := true, editOk := true, sentId := 5 : PlatformEnv }).channelOk = false
    ∧ finalizeAndResetLeaderboard
        { channelOk := false, msgFetchOk := true, editOk := true, sentId := 5 } .vocal 1000
        { users := [{ userId := 1, username := "a", messages := 2, voiceSeconds := 3, voiceJoin := none }],
          tracker := [(1, 500)],
          config := some { channelId := 9, messageId := some 4, timerMessageId := none,
                           startAt := some 0, endAt := some 900, winnersText := none, active := true } } =
      { users := [{ userId := 1, username := "a", messages := 2, voiceSeconds := 3, voiceJoin := none }],
        tracker := [(1, 500)],
        config := some { channelId := 9, messageId := some 4, timerMessageId := none,
                         startAt := some 0, endAt := some 900, winnersText := none, active := true } } :=
  ⟨rfl, finalize_unusable_channel_is_noop _ .vocal 1000 _ rfl⟩

/-- C3: when finalize runs at time `now` on a present config with a usable
channel, the config row is upserted with the new cycle window
`[now, now + WEEK_MS)`, preserving the entry snapshot's channel id,
live-message id and timer-message id, carrying exactly the winners text the
same finalize persisted just before (`finalizeWinnersText`), and leaving
the active flag set. -/
theorem finalize_upsert_preserves_and_rewindows (env : PlatformEnv) (kind : LBKind)
    (now : Int) (st : GuildState) (cfg : LeaderboardConfig)
    (hcfg : st.config = some cfg) (hch : env.channelOk = true) :
    (finalizeAndResetLeaderboard env kind now st).config =
      some { channelId := cfg.channelId,
             messageId := cfg.messageId,
             timerMessageId := cfg.timerMessageId,
             startAt := some now,
             endAt := some (now + WEEK_MS),
             winnersText := some (finalizeWinnersText kind st.users st.tracker now),
             active := true } :=
  finalize_config_eq env kind now st cfg hcfg hch

theorem finalize_upsert_preserves_and_rewindows_witness :
    ({ users := [], tracker := [],
       config := some { channelId := 9, messageId := some 4, timerMessageId := some 7,
                        startAt := some 0, endAt := some 900, winnersText := some "old",
                        active := true } : GuildState }).config =
      some { channelId := 9, messageId := some 4, timerMessageId := some 7,
             startAt := some 0, endAt := some 900, winnersText := some "old", active := true }
    ∧ ({ channelOk := true, msgFetchOk := false, editOk := false, sentId := 5 : PlatformEnv }).channelOk = true
    ∧ (finalizeAndResetLeaderboard { channelOk := true, msgFetchOk := false, editOk := false, sentId := 5 }
        .message 1000
        { users := [], tracker := [],
          config := some { channelId := 9, messageId := some 4, timerMessageId := some 7,
                           startAt := some 0, endAt := some 900, winnersText := some "old",
                           active := true } }).config =
      some { channelId := 9, messageId := some 4, timerMessageId := some 7,
             startAt := some 1000, endAt := some (1000 + WEEK_MS),
             winnersText := some (finalizeWinnersText .message [] [] 1000),
             active := true } :=
  ⟨rfl, rfl, finalize_upsert_preserves_and_rewindows _ .message 1000 _ _ rfl rfl⟩

/-- C10: the cycle window written by finalize always has the fixed
production length `WEEK_MS` (7 days), whatever the length of the cycle that
just expired; the 4-minute `TEST_MS` appears only in the `/setleaderboard`
setup window, so a config set up with the test duration is followed, after
its first finalize, by a 7-day cycle. -/
theorem finalize_window_always_week (env : PlatformEnv) (kind : LBKind)
    (channelId timerId sentId : Nat) (t0 : Int) :
    WEEK_MS = 604800000
    ∧ TEST_MS = 240000
    ∧ (∀ (st : GuildState) (cfg : LeaderboardConfig) (now : Int),
        st.config = some cfg → env.channelOk = true →
        ((finalizeAndResetLeaderboard env kind now st).config).map
            (fun c => (c.startAt, c.endAt)) =
          some (some now, some (now + WEEK_MS)))
    ∧ (setleaderboardRun channelId t0 timerId sentId).startAt = some t0
    ∧ (setleaderboardRun channelId t0 timerId sentId).endAt = some (t0 + TEST_MS)
    ∧ (∀ (st : GuildState) (t1 : Int),
        st.config = some (setleaderboardRun channelId t0 timerId sentId) →
        env.channelOk = true →
        ((finalizeAndResetLeaderboard env kind t1 st).config).map
            (fun c => (c.startAt, c.endAt)) =
          some (some t1, some (t1 + WEEK_MS))) := by
  refine ⟨by decide, by decide, ?_, rfl, rfl, ?_⟩
  · intro st cfg now hcfg hch
    rw [finalize_config_eq env kind now st cfg hcfg hch]
    rfl
  · intro st t1 hcfg hch
    rw [finalize_config_eq env kind t1 st _ hcfg hch]
    rfl

theorem finalize_window_always_week_witness :
    ({ users := [], tracker := [],
       config := some (setleaderboardRun 9 100 7 4) : GuildState }).config =
        some (setleaderboardRun 9 100 7 4)
    ∧ ({ channelOk := true, msgFetchOk := true, editOk := true, sentId := 5 : PlatformEnv }).channelOk = true
    ∧ ((finalizeAndResetLeaderboard { channelOk := true, msgFetchOk := true, editOk := true, sentId := 5 }
          .message 340101
          { users := [], tracker := [],
            config := some (setleaderboardRun 9 100 7 4) }).config).map
        (fun c => (c.startAt, c.endAt)) =
      some (some 340101, some (340101 + WEEK_MS)) :=
  ⟨rfl, rfl,
    ((finalize_window_always_week
        { channelOk := true, msgFetchOk := true, editOk := true, sentId := 5 }
        .message 9 7 4 100).2.2.2.2.2
      { users := [], tracker := [], config := some (setleaderboardRun 9 100 7 4) }
      340101 rfl rfl)⟩

/-! ### Publish recovery behaviour (C5) -/

/-- C5 counterexample: with an active config holding a prior message id and
a usable channel, a fetch failure on that message (the stored message was
deleted) makes `doLeaderboardUpdate` fall through to `ch.send` and persist
the new message id — contradicting the claim that no new message is ever
sent when editing the prior message is impossible. -/
theorem doLeaderboardUpdate_resends_after_fetch_failure :
    (doLeaderboardUpdate { channelOk := true, msgFetchOk := false, editOk := true, sentId := 42 }
        (some { channelId := 9, messageId := some 7, timerMessageId := none,
                startAt := some 0, endAt := some 900, winnersText := none, active := true })).2 =
      .sentNew 42
    ∧ (doLeaderboardUpdate { channelOk := true, msgFetchOk := false, editOk := true, sentId := 42 }
        (some { channelId := 9, messageId := some 7, timerMessageId := none,
                startAt := some 0, endAt := some 900, winnersText := none, active := true })).1 =
      some { channelId := 9, messageId := some 42, timerMessageId := none,
             startAt := some 0, endAt := some 900, winnersText := none, active := true } := by
  exact ⟨rfl, rfl⟩

/-- C5 (amended): only when the prior message is still fetchable does a
failing edit stay unrecovered — the edit failure is swallowed, no new
message is sent and no new id is persisted, in both the scheduler publish
(`doLeaderboardUpdate`) and the finalize publish (`editOrSendPersist` with
a fetched message).  When the fetch itself fails, both paths send a new
message and persist its id. -/
theorem edit_failure_not_resent_when_fetch_succeeds (env : PlatformEnv)
    (c : LeaderboardConfig) (m : Nat)
    (hmid : c.messageId = some m) (hact : c.active = true)
    (hch : env.channelOk = true) (hfetch : env.msgFetchOk = true)
    (hedit : env.editOk = false) :
    editOrSendPersist env c.messageId = (some m, .editFailed)
    ∧ doLeaderboardUpdate env (some c) = (some c, .editFailed)
    ∧ finalizeMidPublishId env c = some m := by
  have h1 : editOrSendPersist env c.messageId = (some m, .editFailed) := by
    rw [hmid]
    unfold editOrSendPersist
    rw [hfetch, hedit]
    simp
  refine ⟨h1, ?_, ?_⟩
  · have hc : { channelId := c.channelId, messageId := some m,
                timerMessageId := c.timerMessageId, startAt := c.startAt,
                endAt := c.endAt, winnersText := c.winnersText,
                active := true : LeaderboardConfig } = c := by
      cases c
      simp_all
    unfold doLeaderboardUpdate
    simp only [hact, hch, Bool.not_true, Bool.false_eq_true, if_false, h1, hc]
  · unfold finalizeMidPublishId
    rw [h1]

theorem edit_failure_not_resent_when_fetch_succeeds_witness :
    ({ channelId := 9, messageId := some 7, timerMessageId := none,
       startAt := some 0, endAt := some 900, winnersText := none,
       active := true : LeaderboardConfig }).messageId = some 7
    ∧ ({ channelId := 9, messageId := some 7, timerMessageId := none,
         startAt := some 0, endAt := some 900, winnersText := none,
         active := true : LeaderboardConfig }).active = true
    ∧ doLeaderboardUpdate { channelOk := true, msgFetchOk := true, editOk := false, sentId := 42 }
        (some { channelId := 9, messageId := some 7, timerMessageId := none,
                startAt := some 0, endAt := some 900, winnersText := none, active := true }) =
      (some { channelId := 9, messageId := some 7, timerMessageId := none,
              startAt := some 0, endAt := some 900, winnersText := none, active := true },
       .editFailed) :=
  ⟨rfl, rfl,
    (edit_failure_not_resent_when_fetch_succeeds
      { channelOk := true, msgFetchOk := true, editOk := false, sentId := 42 }
      { channelId := 9, messageId := some 7, timerMessageId := none,
        startAt := some 0, endAt := some 900, winnersText := none, active := true }
      7 rfl rfl rfl rfl rfl).2.1⟩

/-! ### Pagination (C8) -/

/-- C8: `pageCount = max(1, ceil(N / RESULTS_PER_PAGE))` (1 for an empty
list, otherwise the least multiple bound characterising the ceiling), the
served page is the requested page clamped into `[1, pageCount]`, and the
button navigation cannot escape the bounds: `next` from the last page
serves the last page and `prev` from page 1 serves page 1. -/
theorem pagination_clamped (n : Nat) (p : Int) :
    (n = 0 → pageCountOf n = 1)
    ∧ (0 < n → n ≤ pageCountOf n * RESULTS_PER_PAGE
        ∧ (pageCountOf n - 1) * RESULTS_PER_PAGE < n)
    ∧ 1 ≤ clampPage p (pageCountOf n)
    ∧ clampPage p (pageCountOf n) ≤ pageCountOf n
    ∧ (1 ≤ p → p ≤ (pageCountOf n : Int) → (clampPage p (pageCountOf n) : Int) = p)
    ∧ (∀ rows : List VoiceRanked, rows.length = n →
        (buildClassementPaginated rows p).2.1 = clampPage p (pageCountOf n)
        ∧ (buildClassementPaginated rows p).2.2 = pageCountOf n)
    ∧ (clampPage p (pageCountOf n) = pageCountOf n →
        clampPage (navButtonPage false p) (pageCountOf n) = pageCountOf n)
    ∧ (clampPage p (pageCountOf n) = 1 →
        clampPage (navButtonPage true p) (pageCountOf n) = 1) := by
  have hpages1 : 1 ≤ pageCountOf n := by
    unfold pageCountOf
    omega
  refine ⟨?_, ?_, ?_, ?_, ?_, ?_, ?_, ?_⟩
  · intro h
    subst h
    rfl
  · intro h
    unfold pageCountOf RESULTS_PER_PAGE
    unfold pageCountOf RESULTS_PER_PAGE at hpages1
    omega
  · unfold clampPage
    unfold pageCountOf at hpages1 ⊢
    omega
  · unfold clampPage
    unfold pageCountOf at hpages1 ⊢
    omega
  · intro h1 h2
    unfold clampPage
    omega
  · intro rows hlen
    subst hlen
    exact ⟨rfl, rfl⟩
  · intro h
    unfold clampPage navButtonPage at *
    simp only [if_false, Bool.false_eq_true]
    omega
  · intro h
    unfold clampPage navButtonPage at *
    simp only [if_true]
    unfold pageCountOf at hpages1 ⊢
    unfold pageCountOf at h
    omega

theorem pagination_clamped_witness :
    (25 = 0 → pageCountOf 25 = 1)
    ∧ (0 < 25 → 25 ≤ pageCountOf 25 * RESULTS_PER_PAGE
        ∧ (pageCountOf 25 - 1) * RESULTS_PER_PAGE < 25)
    ∧ 1 ≤ clampPage 3 (pageCountOf 25)
    ∧ clampPage 3 (pageCountOf 25) ≤ pageCountOf 25
    ∧ (1 ≤ (3 : Int) → (3 : Int) ≤ (pageCountOf 25 : Int) → (clampPage 3 (pageCountOf 25) : Int) = 3)
    ∧ (∀ rows : List VoiceRanked, rows.length = 25 →
        (buildClassementPaginated rows 3).2.1 = clampPage 3 (pageCountOf 25)
        ∧ (buildClassementPaginated rows 3).2.2 = pageCountOf 25)
    ∧ (clampPage 3 (pageCountOf 25) = pageCountOf 25 →
        clampPage (navButtonPage false 3) (pageCountOf 25) = pageCountOf 25)
    ∧ (clampPage 3 (pageCountOf 25) = 1 →
        clampPage (navButtonPage true 3) (pageCountOf 25) = 1) :=
  pagination_clamped 25 3

/-! ### Message counting (C7) -/

theorem getMessages_messageCreate (ev : MessageEvent) (st : GuildState) (u : Nat) :
    getMessages (messageCreate ev st).users u =
      if (qualifies ev && ev.author == u) then getMessages st.users u + 1
      else getMessages st.users u := by
  unfold messageCreate qualifies
  cases hg : ev.inGuild with
  | false => simp
  | true =>
    cases hb : ev.bot with
    | true => simp
    | false =>
      simp only [Bool.not_false, Bool.false_or, Bool.true_and, Bool.not_true, if_false,
        Bool.false_eq_true]
      by_cases hau : ev.author = u
      · subst hau
        simp only [beq_self_eq_true, Bool.and_true, if_true]
        rw [getMessages, getRow_incMessage_self, getRow_upsert_self]
        rw [getMessages]
        cases hr : getRow st.users ev.author <;> simp [hr]
      · have : (ev.author == u) = false := by
          rw [beq_eq_false_iff_ne]
          exact hau
        simp only [this, Bool.and_false, Bool.false_eq_true, if_false]
        rw [getMessages, getRow_incMessage_ne _ _ _ (fun hh => hau hh.symm),
          getRow_upsert_ne _ _ _ _ (fun hh => hau hh.symm)]
        rfl

theorem getMessages_fold (events : List MessageEvent) (st : GuildState) (u : Nat) :
    getMessages ((events.foldl (fun s e => messageCreate e s) st).users) u =
      getMessages st.users u
        + (events.countP (fun e => qualifies e && e.author == u) : Int) := by
  induction events generalizing st with
  | nil => simp
  | cons ev evs ih =>
    simp only [List.foldl_cons, List.countP_cons]
    rw [ih, getMessages_messageCreate]
    by_cases h : (qualifies ev && ev.author == u) = true
    · simp [h]
      omega
    · simp only [h, if_false, Bool.false_eq_true]
      simp only [Bool.not_eq_true] at h
      simp [h]

/-- C7: starting from a zero counter, the stored `messages` value after a
sequence of `messageCreate` events equals the number of qualifying events
(author not a bot, event inside a guild, author is this user); moreover
every single qualifying event increments the counter by exactly 1 and
upserts the author's identity (last seen display name). -/
theorem messageCount_counts_qualifying (events : List MessageEvent) (st : GuildState)
    (u : Nat) (h0 : getMessages st.users u = 0) :
    getMessages ((events.foldl (fun s e => messageCreate e s) st).users) u =
      (events.countP (fun e => qualifies e && e.author == u) : Int)
    ∧ ∀ (ev : MessageEvent) (s : GuildState), qualifies ev = true → ev.author = u →
        getMessages ((messageCreate ev s).users) u = getMessages s.users u + 1
        ∧ getUsername ((messageCreate ev s).users) u = some ev.name := by
  constructor
  · rw [getMessages_fold, h0, zero_add]
  · intro ev s hq hau
    constructor
    · rw [getMessages_messageCreate]
      simp [hq, hau]
    · subst hau
      unfold messageCreate
      unfold qualifies at hq
      have hg : ev.inGuild = true := by
        cases hgg : ev.inGuild <;> simp_all
      have hb : ev.bot = false := by
        cases hbb : ev.bot <;> simp_all
      simp only [hg, hb, Bool.not_true, Bool.false_or, Bool.false_eq_true, if_false]
      rw [getUsername, getRow_incMessage_self, getRow_upsert_self]
      cases hr : getRow s.users ev.author <;> simp [hr]

theorem messageCount_counts_qualifying_witness :
    getMessages
        ({ users := [], tracker := [], config := none : GuildState }).users 1 = 0
    ∧ getMessages
        (([{ inGuild := true, bot := false, author := 1, name := "ann" },
           { inGuild := true, bot := true, author := 1, name := "bot" },
           { inGuild := false, bot := false, author := 1, name := "dm" },
           { inGuild := true, bot := false, author := 2, name := "other" },
           { inGuild := true, bot := false, author := 1, name := "ann2" }
          ].foldl (fun s e => messageCreate e s)
            { users := [], tracker := [], config := none }).users) 1 =
      (([{ inGuild := true, bot := false, author := 1, name := "ann" },
         { inGuild := true, bot := true, author := 1, name := "bot" },
         { inGuild := false, bot := false, author := 1, name := "dm" },
         { inGuild := true, bot := false, author := 2, name := "other" },
         { inGuild := true, bot := false, author := 1, name := "ann2" }
        ] : List MessageEvent).countP (fun e => qualifies e && e.author == 1) : Int) :=
  ⟨rfl,
    (messageCount_counts_qualifying
      [{ inGuild := true, bot := false, author := 1, name := "ann" },
       { inGuild := true, bot := true, author := 1, name := "bot" },
       { inGuild := false, bot := false, author := 1, name := "dm" },
       { inGuild := true, bot := false, author := 2, name := "other" },
       { inGuild := true, bot := false, author := 1, name := "ann2" }]
      { users := [], tracker := [], config := none } 1 rfl).1⟩

/-! ### Voice accounting (C2) -/

theorem getVoiceSeconds_setVoiceJoin (users : List UserRow) (u : Nat) (s : Option Int)
    (v : Nat) :
    getVoiceSeconds (stmtSetVoiceJoin users u s) v = getVoiceSeconds users v := by
  by_cases h : v = u
  · subst h
    rw [getVoiceSeconds, getRow_setVoiceJoin_self]
    cases hr : getRow users v <;> simp [hr, getVoiceSeconds]
  · rw [getVoiceSeconds, getRow_setVoiceJoin_ne users u v s h]
    rfl

theorem isSome_setVoiceJoin (users : List UserRow) (u : Nat) (s : Option Int) (v : Nat) :
    (getRow (stmtSetVoiceJoin users u s) v).isSome = (getRow users v).isSome := by
  by_cases h : v = u
  · subst h
    rw [getRow_setVoiceJoin_self]
    cases hr : getRow users v <;> simp [hr]
  · rw [getRow_setVoiceJoin_ne users u v s h]

theorem getVoiceSeconds_addVoiceSeconds_self (users : List UserRow) (u : Nat) (inc : Int)
    (h : (getRow users u).isSome = true) :
    getVoiceSeconds (stmtAddVoiceSeconds users u inc) u = getVoiceSeconds users u + inc := by
  obtain ⟨r, hr⟩ := Option.isSome_iff_exists.mp h
  rw [getVoiceSeconds, getRow_addVoiceSeconds_self, hr]
  rw [getVoiceSeconds, hr]
  rfl

theorem isSome_addVoiceSeconds (users : List UserRow) (u : Nat) (inc : Int) (v : Nat) :
    (getRow (stmtAddVoiceSeconds users u inc) v).isSome = (getRow users v).isSome := by
  by_cases h : v = u
  · subst h
    rw [getRow_addVoiceSeconds_self]
    cases hr : getRow users v <;> simp [hr]
  · rw [getRow_addVoiceSeconds_ne users u v inc h]

theorem getVoiceSeconds_upsert (users : List UserRow) (u : Nat) (n : String) (v : Nat) :
    getVoiceSeconds (stmtUpsertUser users u n) v = getVoiceSeconds users v := by
  by_cases h : v = u
  · subst h
    rw [getVoiceSeconds, getRow_upsert_self]
    cases hr : getRow users v <;> simp [hr, getVoiceSeconds]
  · rw [getVoiceSeconds, getRow_upsert_ne users u v n h]
    rfl

theorem voice_join_step (st : GuildState) (u : Nat) (name : String) (t : Int) :
    getVoiceSeconds (voiceStateUpdate false u name (.join t) st).users u
        = getVoiceSeconds st.users u
    ∧ trackerGet (voiceStateUpdate false u name (.join t) st).tracker u = some t
    ∧ (getRow (voiceStateUpdate false u name (.join t) st).users u).isSome = true := by
  unfold voiceStateUpdate
  simp only [Bool.false_eq_true, if_false]
  refine ⟨?_, trackerGet_set_self st.tracker u t, ?_⟩
  · rw [getVoiceSeconds_setVoiceJoin, getVoiceSeconds_upsert]
  · rw [isSome_setVoiceJoin]
    exact getRow_isSome_upsert_self st.users u name

theorem voice_moves_leave (u : Nat) (name : String) (tEnd : Int) (ts : List Int) :
    ∀ (st : GuildState) (prev : Int),
    (getRow st.users u).isSome = true →
    trackerGet st.tracker u = some prev →
    getVoiceSeconds
        (runVoiceEvents u name
          (ts.map (fun t => VoiceEvent.move t none) ++ [VoiceEvent.leave tEnd none]) st).users u
      = getVoiceSeconds st.users u + segFloorSum prev ts tEnd := by
  induction ts with
  | nil =>
    intro st prev hrow htr
    unfold runVoiceEvents
    simp only [List.map_nil, List.nil_append, List.foldl_cons, List.foldl_nil]
    unfold voiceStateUpdate
    simp only [Bool.false_eq_true, if_false]
    unfold sessionStartFallback
    rw [htr]
    simp only
    rw [getVoiceSeconds_setVoiceJoin, getVoiceSeconds_addVoiceSeconds_self _ _ _ hrow]
    rfl
  | cons t ts ih =>
    intro st prev hrow htr
    unfold runVoiceEvents
    simp only [List.map_cons, List.cons_append, List.foldl_cons]
    have hstep :
        voiceStateUpdate false u name (.move t none) st =
          { st with
            tracker := trackerSet st.tracker u t,
            users := stmtSetVoiceJoin (stmtAddVoiceSeconds st.users u ((t - prev).fdiv 1000))
                       u (some (t.fdiv 1000)) } := by
      unfold voiceStateUpdate
      simp only [Bool.false_eq_true, if_false]
      unfold sessionStartFallback
      rw [htr]
    rw [hstep]
    have hrow' :
        (getRow (stmtSetVoiceJoin (stmtAddVoiceSeconds st.users u ((t - prev).fdiv 1000))
            u (some (t.fdiv 1000))) u).isSome = true := by
      rw [isSome_setVoiceJoin, isSome_addVoiceSeconds]
      exact hrow
    have := ih { st with
        tracker := trackerSet st.tracker u t,
        users := stmtSetVoiceJoin (stmtAddVoiceSeconds st.users u ((t - prev).fdiv 1000))
                   u (some (t.fdiv 1000)) } t hrow' (trackerGet_set_self st.tracker u t)
    rw [runVoiceEvents] at this
    rw [this, getVoiceSeconds_setVoiceJoin, getVoiceSeconds_addVoiceSeconds_self _ _ _ hrow]
    rw [segFloorSum]
    ring

/-- C2 counterexample: join at 0 ms, move to another channel at 500 ms,
leave at 1000 ms.  The user was connected 1000 ms, so
`floor(total) = 1` second, but both flushed segments floor to 0, so the
durable `voiceSeconds` total is 0 — the per-segment truncation at the move
loses the sub-second remainders, contradicting the claim. -/
theorem voice_flush_loses_subsecond_at_move :
    getVoiceSeconds
        (runVoiceEvents 1 "a" (voiceEventSeq 0 [500] 1000)
          { users := [], tracker := [], config := none }).users 1 = 0
    ∧ ((1000 : Int) - 0).fdiv 1000 = 1
    ∧ getVoiceSeconds
        (runVoiceEvents 1 "a" (voiceEventSeq 0 [500] 1000)
          { users := [], tracker := [], config := none }).users 1 ≠
      ((1000 : Int) - 0).fdiv 1000 := by
  refine ⟨by decide, by decide, by decide⟩

/-- C2 (amended): over any join → moves → leave sequence the total added to
the durable `voiceSeconds` equals the sum of `floor(segment / 1000)` over
the segments delimited by the channel moves — each interval is flushed
exactly once and none is skipped, but each segment is floored to whole
seconds separately, so up to one second per move can be lost relative to
`floor(total connected time)`; with no intermediate move the two agree
(`segFloorSum t0 [] tEnd = (tEnd - t0).fdiv 1000` definitionally). -/
theorem voice_flush_per_segment (st : GuildState) (u : Nat) (name : String)
    (t0 : Int) (ts : List Int) (tEnd : Int) :
    getVoiceSeconds
        (runVoiceEvents u name (voiceEventSeq t0 ts tEnd) st).users u
      = getVoiceSeconds st.users u + segFloorSum t0 ts tEnd := by
  unfold voiceEventSeq runVoiceEvents
  simp only [List.foldl_cons]
  have hj := voice_join_step st u name t0
  have := voice_moves_leave u name tEnd ts (voiceStateUpdate false u name (.join t0) st)
    t0 hj.2.2 hj.2.1
  rw [runVoiceEvents] at this
  rw [this, hj.1]

/-! ### Startup reconciliation (C4) -/

theorem readyUserReconcile_other (now : Int) (st : GuildState) (p : Nat × String) (u : Nat)
    (hne : u ≠ p.1) :
    getRow (readyUserReconcile now st p).users u = getRow st.users u
    ∧ trackerGet (readyUserReconcile now st p).tracker u = trackerGet st.tracker u := by
  cases hv : (getRow st.users p.1).bind (fun r => r.voiceJoin) with
  | none =>
    simp only [readyUserReconcile, hv]
    refine ⟨?_, trackerGet_set_ne _ _ _ _ hne⟩
    rw [getRow_setVoiceJoin_ne _ _ _ _ hne, getRow_upsert_ne _ _ _ _ hne]
  | some j =>
    by_cases hj : j = 0
    · simp only [readyUserReconcile, hv, if_pos hj]
      refine ⟨?_, trackerGet_set_ne _ _ _ _ hne⟩
      rw [getRow_setVoiceJoin_ne _ _ _ _ hne, getRow_upsert_ne _ _ _ _ hne]
    · simp only [readyUserReconcile, hv, if_neg hj]
      exact ⟨trivial, trackerGet_set_ne _ _ _ _ hne⟩

theorem readyReconcile_preserves_untouched (now : Int) (u : Nat) :
    ∀ (l : List (Nat × String)) (st : GuildState), (∀ p ∈ l, p.1 ≠ u) →
    getRow ((l.foldl (readyUserReconcile now) st)).users u = getRow st.users u
    ∧ trackerGet ((l.foldl (readyUserReconcile now) st)).tracker u = trackerGet st.tracker u := by
  intro l
  induction l with
  | nil => exact fun st _ => ⟨rfl, rfl⟩
  | cons p ps ih =>
    intro st h
    simp only [List.foldl_cons]
    have hpu : u ≠ p.1 := fun hh => (h p (by simp)) hh.symm
    have hstep := readyUserReconcile_other now st p u hpu
    have hrest := ih (readyUserReconcile now st p) (fun q hq => h q (by simp [hq]))
    exact ⟨hrest.1.trans hstep.1, hrest.2.trans hstep.2⟩

theorem readyUserReconcile_self_recover (now : Int) (st : GuildState) (u : Nat)
    (name : String) (j : Int) (hvj : getVoiceJoin st.users u = some j) (hj : ¬ j = 0) :
    (readyUserReconcile now st (u, name)).users = st.users
    ∧ trackerGet (readyUserReconcile now st (u, name)).tracker u = some (j * 1000) := by
  have hv : (getRow st.users u).bind (fun r => r.voiceJoin) = some j := hvj
  simp only [readyUserReconcile, hv, if_neg hj]
  exact ⟨trivial, trackerGet_set_self _ _ _⟩

theorem readyUserReconcile_self_fresh (now : Int) (st : GuildState) (u : Nat) (name : String)
    (hvj : getVoiceJoin st.users u = none) :
    trackerGet (readyUserReconcile now st (u, name)).tracker u = some now
    ∧ getVoiceJoin (readyUserReconcile now st (u, name)).users u = some (now.fdiv 1000) := by
  have hv : (getRow st.users u).bind (fun r => r.voiceJoin) = none := hvj
  simp only [readyUserReconcile, hv]
  refine ⟨trackerGet_set_self _ _ _, ?_⟩
  unfold getVoiceJoin
  rw [getRow_setVoiceJoin_self]
  obtain ⟨r, hr⟩ := Option.isSome_iff_exists.mp (getRow_isSome_upsert_self st.users u name)
  rw [hr]
  rfl

theorem isSome_of_getVoiceJoin_some (users : List UserRow) (u : Nat) (j : Int)
    (h : getVoiceJoin users u = some j) : (getRow users u).isSome = true := by
  unfold getVoiceJoin at h
  cases hr : getRow users u with
  | none => rw [hr] at h; exact absurd h (by simp)
  | some r => rfl

/-- C4: at startup, for every currently-connected non-bot user:
if a durable (truthy) `voiceJoin` epoch `j` exists, the rebuilt in-memory
session start is exactly that persisted epoch (`j * 1000` ms — the
`* 1000` fix), not the restart time, and the flush at an eventual leave
adds `floor((tEnd - j*1000)/1000)`, which covers at least
`floor((tEnd - t0)/1000)` when `j` was persisted as `floor(t0/1000)` —
so the pre-restart interval is included.  If no durable epoch exists, a
fresh session anchored at `now` is created and `floor(now/1000)` is
persisted as its `voiceJoin`. -/
theorem startup_reconcile_recovers_session (connected : List (Nat × String))
    (st : GuildState) (now : Int) (u : Nat) (name : String)
    (hmem : (u, name) ∈ connected)
    (hnodup : (connected.map Prod.fst).Nodup) :
    (∀ j : Int, getVoiceJoin st.users u = some j → ¬ j = 0 →
       trackerGet (readyReconcile connected now st).tracker u = some (j * 1000)
       ∧ getVoiceJoin (readyReconcile connected now st).users u = some j
       ∧ ∀ tEnd : Int,
           getVoiceSeconds ((voiceStateUpdate false u name (.leave tEnd none)
               (readyReconcile connected now st)).users) u
             = getVoiceSeconds (readyReconcile connected now st).users u
                 + (tEnd - j * 1000).fdiv 1000)
    ∧ (∀ j t0 tEnd : Int, j = t0.fdiv 1000 → t0 ≤ tEnd →
         (tEnd - t0).fdiv 1000 ≤ (tEnd - j * 1000).fdiv 1000)
    ∧ (getVoiceJoin st.users u = none →
         trackerGet (readyReconcile connected now st).tracker u = some now
         ∧ getVoiceJoin (readyReconcile connected now st).users u = some (now.fdiv 1000)) := by
  obtain ⟨l1, l2, hsplit⟩ := List.append_of_mem hmem
  subst hsplit
  have hkeys : u ∉ l1.map Prod.fst ∧ u ∉ l2.map Prod.fst := by
    rw [List.map_append, List.map_cons] at hnodup
    obtain ⟨h1, h2, hdisj⟩ := List.nodup_append.mp hnodup
    refine ⟨fun hu => ?_, (List.nodup_cons.mp h2).1⟩
    exact (hdisj hu (by simp)).elim
  have hl1 : ∀ p ∈ l1, p.1 ≠ u := by
    intro p hp hpu
    exact hkeys.1 (hpu ▸ List.mem_map_of_mem Prod.fst hp)
  have hl2 : ∀ p ∈ l2, p.1 ≠ u := by
    intro p hp hpu
    exact hkeys.2 (hpu ▸ List.mem_map_of_mem Prod.fst hp)
  have hfold :
      readyReconcile (l1 ++ (u, name) :: l2) now st =
        l2.foldl (readyUserReconcile now)
          (readyUserReconcile now (l1.foldl (readyUserReconcile now) st) (u, name)) := by
    unfold readyReconcile
    rw [List.foldl_append, List.foldl_cons]
  have hpre := readyReconcile_preserves_untouched now u l1 st hl1
  refine ⟨?_, ?_, ?_⟩
  · intro j hvj hj
    have hvj1 : getVoiceJoin (l1.foldl (readyUserReconcile now) st).users u = some j := by
      unfold getVoiceJoin
      rw [hpre.1]
      exact hvj
    have hstep := readyUserReconcile_self_recover now (l1.foldl (readyUserReconcile now) st)
      u name j hvj1 hj
    have hpost := readyReconcile_preserves_untouched now u l2
      (readyUserReconcile now (l1.foldl (readyUserReconcile now) st) (u, name)) hl2
    have htr : trackerGet (readyReconcile (l1 ++ (u, name) :: l2) now st).tracker u =
        some (j * 1000) := by
      rw [hfold, hpost.2, hstep.2]
    have hvjfin : getVoiceJoin (readyReconcile (l1 ++ (u, name) :: l2) now st).users u =
        some j := by
      unfold getVoiceJoin
      rw [hfold, hpost.1, hstep.1]
      exact hvj1
    refine ⟨htr, hvjfin, ?_⟩
    intro tEnd
    have hrow : (getRow (readyReconcile (l1 ++ (u, name) :: l2) now st).users u).isSome = true :=
      isSome_of_getVoiceJoin_some _ u j hvjfin
    unfold voiceStateUpdate
    simp only [Bool.false_eq_true, if_false]
    unfold sessionStartFallback
    rw [htr]
    simp only
    rw [getVoiceSeconds_setVoiceJoin, getVoiceSeconds_addVoiceSeconds_self _ _ _ hrow]
  · intro j t0 tEnd hjt ht
    have hlow : j * 1000 ≤ t0 := by
      rw [hjt, Int.fdiv_eq_ediv t0 (by norm_num)]
      exact Int.ediv_mul_le t0 (by norm_num)
    rw [Int.fdiv_eq_ediv _ (by norm_num : (0:Int) ≤ 1000),
      Int.fdiv_eq_ediv _ (by norm_num : (0:Int) ≤ 1000)]
    exact Int.ediv_le_ediv (by norm_num) (by omega)
  · intro hvj
    have hvj1 : getVoiceJoin (l1.foldl (readyUserReconcile now) st).users u = none := by
      unfold getVoiceJoin
      rw [hpre.1]
      exact hvj
    have hstep := readyUserReconcile_self_fresh now (l1.foldl (readyUserReconcile now) st)
      u name hvj1
    have hpost := readyReconcile_preserves_untouched now u l2
      (readyUserReconcile now (l1.foldl (readyUserReconcile now) st) (u, name)) hl2
    constructor
    · rw [hfold, hpost.2, hstep.1]
    · unfold getVoiceJoin
      rw [hfold, hpost.1]
      exact hstep.2

theorem startup_reconcile_recovers_session_witness :
    ((1 : Nat), "a") ∈ [((1 : Nat), "a")]
    ∧ (([((1 : Nat), "a")] : List (Nat × String)).map Prod.fst).Nodup
    ∧ getVoiceJoin
        [{ userId := 1, username := "a", messages := 0, voiceSeconds := 0,
           voiceJoin := some 100 : UserRow }] 1 = some 100
    ∧ trackerGet (readyReconcile [(1, "a")] 200000
        { users := [{ userId := 1, username := "a", messages := 0, voiceSeconds := 0,
                      voiceJoin := some 100 }],
          tracker := [], config := none }).tracker 1 = some 100000 :=
  ⟨by decide, by decide, rfl,
    ((startup_reconcile_recovers_session [(1, "a")]
        { users := [{ userId := 1, username := "a", messages := 0, voiceSeconds := 0,
                      voiceJoin := some 100 }],
          tracker := [], config := none }
        200000 1 "a" (by decide) (by decide)).1 100 rfl (by decide)).1⟩

/-! ### `voiceJoin` accessor lemmas (C6) -/

theorem getVoiceJoin_upsert (users : List UserRow) (u : Nat) (n : String) (v : Nat) :
    getVoiceJoin (stmtUpsertUser users u n) v = getVoiceJoin users v := by
  by_cases h : v = u
  · subst h
    unfold getVoiceJoin
    rw [getRow_upsert_self]
    cases hr : getRow users v <;> simp [hr]
  · unfold getVoiceJoin
    rw [getRow_upsert_ne users u v n h]

theorem getVoiceJoin_setVoiceJoin_self (users : List UserRow) (u : Nat) (s : Option Int) :
    getVoiceJoin (stmtSetVoiceJoin users u s) u =
      if (getRow users u).isSome then s else none := by
  unfold getVoiceJoin
  rw [getRow_setVoiceJoin_self]
  cases hr : getRow users u <;> simp [hr]

theorem getVoiceJoin_setVoiceJoin_ne (users : List UserRow) (u v : Nat) (s : Option Int)
    (hne : v ≠ u) :
    getVoiceJoin (stmtSetVoiceJoin users u s) v = getVoiceJoin users v := by
  unfold getVoiceJoin
  rw [getRow_setVoiceJoin_ne users u v s hne]

theorem getVoiceJoin_addVoiceSeconds_self (users : List UserRow) (u : Nat) (inc : Int) :
    getVoiceJoin (stmtAddVoiceSeconds users u inc) u = none := by
  unfold getVoiceJoin
  rw [getRow_addVoiceSeconds_self]
  cases hr : getRow users u <;> simp [hr]

theorem getVoiceJoin_addVoiceSeconds_ne (users : List UserRow) (u v : Nat) (inc : Int)
    (hne : v ≠ u) :
    getVoiceJoin (stmtAddVoiceSeconds users u inc) v = getVoiceJoin users v := by
  unfold getVoiceJoin
  rw [getRow_addVoiceSeconds_ne users u v inc hne]

theorem getVoiceJoin_resetVoice (users : List UserRow) (v : Nat) :
    getVoiceJoin (stmtResetCountsVoice users) v = none := by
  unfold getVoiceJoin
  rw [getRow_resetVoice]
  cases hr : getRow users v <;> simp [hr]

theorem getVoiceJoin_resetMessages (users : List UserRow) (v : Nat) :
    getVoiceJoin (stmtResetCountsMessages users) v = getVoiceJoin users v := by
  unfold getVoiceJoin
  rw [getRow_resetMessages]
  cases hr : getRow users v <;> simp [hr]

theorem isSome_resetVoice (users : List UserRow) (v : Nat) :
    (getRow (stmtResetCountsVoice users) v).isSome = (getRow users v).isSome := by
  rw [getRow_resetVoice]
  cases hr : getRow users v <;> simp [hr]

theorem trackerGet_isSome_iff_any (tr : List (Nat × Int)) (u : Nat) :
    (trackerGet tr u).isSome = true ↔ (tr.any (fun p => p.1 == u)) = true := by
  unfold trackerGet
  rw [Option.isSome_map', List.find?_isSome, List.any_eq_true]

theorem reanchor_fold_isSome (v : Option Int) (u : Nat) :
    ∀ (tr : List (Nat × Int)) (users : List UserRow),
    (getRow (tr.foldl (fun us p => stmtSetVoiceJoin us p.1 v) users) u).isSome =
      (getRow users u).isSome := by
  intro tr
  induction tr with
  | nil => exact fun users => rfl
  | cons p ps ih =>
    intro users
    simp only [List.foldl_cons]
    rw [ih, isSome_setVoiceJoin]

theorem reanchor_fold_vj (v : Option Int) (u : Nat) :
    ∀ (tr : List (Nat × Int)) (users : List UserRow),
    getVoiceJoin (tr.foldl (fun us p => stmtSetVoiceJoin us p.1 v) users) u =
      if (tr.any (fun p => p.1 == u) && (getRow users u).isSome) then v
      else getVoiceJoin users u := by
  intro tr
  induction tr with
  | nil => exact fun users => by simp
  | cons p ps ih =>
    intro users
    simp only [List.foldl_cons, List.any_cons]
    rw [ih]
    by_cases hpu : (p.1 == u) = true
    · have hp : p.1 = u := by simpa using hpu
      simp only [hp, beq_self_eq_true, Bool.true_or, Bool.true_and]
      by_cases hs : (getRow users u).isSome = true
      · have h1 : getVoiceJoin (stmtSetVoiceJoin users u v) u = v := by
          rw [getVoiceJoin_setVoiceJoin_self, if_pos hs]
        have h2 : (getRow (stmtSetVoiceJoin users u v) u).isSome = true := by
          rw [isSome_setVoiceJoin]
          exact hs
        cases hq : ps.any (fun q => q.1 == u) <;> simp [hq, h1, h2, hs]
      · have hs2 : (getRow users u).isSome = false := by
          cases hss : (getRow users u).isSome
          · rfl
          · exact absurd hss hs
        have hnone : getVoiceJoin users u = none := by
          unfold getVoiceJoin
          cases hr : getRow users u
          · rfl
          · rw [hr] at hs2
            exact absurd hs2 (by simp)
        have h1 : getVoiceJoin (stmtSetVoiceJoin users u v) u = none := by
          rw [getVoiceJoin_setVoiceJoin_self, if_neg (by simp [hs2])]
        have h2 : (getRow (stmtSetVoiceJoin users u v) u).isSome = false := by
          rw [isSome_setVoiceJoin]
          exact hs2
        simp [hs2, h2, h1, hnone]
    · have hne : u ≠ p.1 := by
        intro hh
        exact hpu (by simp [hh])
      have h1 : getVoiceJoin (stmtSetVoiceJoin users p.1 v) u = getVoiceJoin users u :=
        getVoiceJoin_setVoiceJoin_ne users p.1 u v hne
      have hpu2 : (p.1 == u) = false := by
        cases hb : (p.1 == u)
        · rfl
        · exact absurd hb hpu
      have h2 : (getRow (stmtSetVoiceJoin users p.1 v) u).isSome = (getRow users u).isSome :=
        isSome_setVoiceJoin users p.1 v u
      simp only [h1, h2, hpu2, Bool.false_or]

/-! ### Invariant preservation (C6) -/

theorem invariantAt_transfer (st : GuildState) (st2 : GuildState) (w : Nat)
    (h1 : getVoiceJoin st2.users w = getVoiceJoin st.users w)
    (h2 : trackerGet st2.tracker w = trackerGet st.tracker w)
    (h : invariantAt st w) :
    invariantAt st2 w := by
  unfold invariantAt at *
  rw [h1, h2]
  exact h

theorem invariantAt_of_both_some (st : GuildState) (w : Nat) (j s : Int)
    (h1 : getVoiceJoin st.users w = some j)
    (h2 : trackerGet st.tracker w = some s)
    (he : j = s.fdiv 1000) :
    invariantAt st w := by
  unfold invariantAt
  rw [h1, h2]
  constructor
  · simp
  · intro j2 s2 hj2 hs2
    cases hj2
    cases hs2
    exact he

theorem invariantAt_of_both_none (st : GuildState) (w : Nat)
    (h1 : getVoiceJoin st.users w = none)
    (h2 : trackerGet st.tracker w = none) :
    invariantAt st w := by
  unfold invariantAt
  rw [h1, h2]
  constructor
  · simp
  · intro j2 s2 hj2 hs2
    cases hj2

theorem invariant_voiceStateUpdate (st : GuildState) (u : Nat) (name : String)
    (ev : VoiceEvent) (h : voiceInvariant st)
    (hmove : ∀ t jts, ev = VoiceEvent.move t jts → (getRow st.users u).isSome = true) :
    voiceInvariant (voiceStateUpdate false u name ev st) := by
  intro w
  cases ev with
  | join now =>
    unfold voiceStateUpdate
    simp only [Bool.false_eq_true, if_false]
    by_cases hw : w = u
    · subst hw
      refine invariantAt_of_both_some _ w (now.fdiv 1000) now ?_ ?_ rfl
      · rw [getVoiceJoin_setVoiceJoin_self, if_pos (getRow_isSome_upsert_self st.users w name)]
      · exact trackerGet_set_self st.tracker w now
    · refine invariantAt_transfer st _ w ?_ ?_ (h w)
      · rw [getVoiceJoin_setVoiceJoin_ne _ _ _ _ hw, getVoiceJoin_upsert]
      · exact trackerGet_set_ne _ _ _ _ hw
  | move now jts =>
    have hrow : (getRow st.users u).isSome = true := hmove now jts rfl
    unfold voiceStateUpdate
    simp only [Bool.false_eq_true, if_false]
    by_cases hw : w = u
    · subst hw
      cases hs : sessionStartFallback st.tracker w jts with
      | none =>
        refine invariantAt_of_both_some _ w (now.fdiv 1000) now ?_ ?_ rfl
        · simp only [hs]
          rw [getVoiceJoin_setVoiceJoin_self, if_pos hrow]
        · simp only [hs]
          exact trackerGet_set_self st.tracker w now
      | some s0 =>
        refine invariantAt_of_both_some _ w (now.fdiv 1000) now ?_ ?_ rfl
        · simp only [hs]
          have hrow2 : (getRow (stmtAddVoiceSeconds st.users w ((now - s0).fdiv 1000)) w).isSome = true := by
            rw [isSome_addVoiceSeconds]
            exact hrow
          rw [getVoiceJoin_setVoiceJoin_self, if_pos hrow2]
        · simp only [hs]
          exact trackerGet_set_self st.tracker w now
    · cases hs : sessionStartFallback st.tracker u jts with
      | none =>
        refine invariantAt_transfer st _ w ?_ ?_ (h w)
        · simp only [hs]
          rw [getVoiceJoin_setVoiceJoin_ne _ _ _ _ hw]
        · simp only [hs]
          exact trackerGet_set_ne _ _ _ _ hw
      | some s0 =>
        refine invariantAt_transfer st _ w ?_ ?_ (h w)
        · simp only [hs]
          rw [getVoiceJoin_setVoiceJoin_ne _ _ _ _ hw,
            getVoiceJoin_addVoiceSeconds_ne _ _ _ _ hw]
        · simp only [hs]
          exact trackerGet_set_ne _ _ _ _ hw
  | leave now jts =>
    unfold voiceStateUpdate
    simp only [Bool.false_eq_true, if_false]
    by_cases hw : w = u
    · subst hw
      cases hs : sessionStartFallback st.tracker w jts with
      | none =>
        refine invariantAt_of_both_none _ w ?_ ?_
        · simp only [hs]
          rw [getVoiceJoin_setVoiceJoin_self]
          cases hrr : (getRow st.users w).isSome <;> simp [hrr]
        · simp only [hs]
          exact trackerGet_del_self st.tracker w
      | some s0 =>
        refine invariantAt_of_both_none _ w ?_ ?_
        · simp only [hs]
          rw [getVoiceJoin_setVoiceJoin_self]
          cases hrr : (getRow (stmtAddVoiceSeconds st.users w ((now - s0).fdiv 1000)) w).isSome <;>
            simp [hrr]
        · simp only [hs]
          exact trackerGet_del_self st.tracker w
    · cases hs : sessionStartFallback st.tracker u jts with
      | none =>
        refine invariantAt_transfer st _ w ?_ ?_ (h w)
        · simp only [hs]
          rw [getVoiceJoin_setVoiceJoin_ne _ _ _ _ hw]
        · simp only [hs]
          exact trackerGet_del_ne _ _ _ hw
      | some s0 =>
        refine invariantAt_transfer st _ w ?_ ?_ (h w)
        · simp only [hs]
          rw [getVoiceJoin_setVoiceJoin_ne _ _ _ _ hw,
            getVoiceJoin_addVoiceSeconds_ne _ _ _ _ hw]
        · simp only [hs]
          exact trackerGet_del_ne _ _ _ hw

theorem invariant_finalize (env : PlatformEnv) (kind : LBKind) (now : Int)
    (st : GuildState) (h : voiceInvariant st) :
    voiceInvariant (finalizeAndResetLeaderboard env kind now st) := by
  unfold finalizeAndResetLeaderboard
  cases hcfg : st.config with
  | none => exact h
  | some cfg =>
    cases hch : env.channelOk with
    | false =>
      simp only [hch, Bool.not_false, if_true]
      exact h
    | true =>
      simp only [hch, Bool.not_true, Bool.false_eq_true, if_false]
      intro w
      cases kind with
      | message =>
        refine invariantAt_transfer st _ w ?_ ?_ (h w)
        · exact getVoiceJoin_resetMessages st.users w
        · rfl
      | vocal =>
        cases htr : trackerGet st.tracker w with
        | some s =>
          have hvj : ∃ j, getVoiceJoin st.users w = some j := by
            have hx := (h w).1.mpr (by rw [htr]; rfl)
            exact Option.isSome_iff_exists.mp hx
          obtain ⟨j, hj⟩ := hvj
          have hrow : (getRow st.users w).isSome = true := isSome_of_getVoiceJoin_some _ w j hj
          have hany : (st.tracker.any (fun p => p.1 == w)) = true := by
            rw [← trackerGet_isSome_iff_any, htr]
            rfl
          refine invariantAt_of_both_some _ w (now.fdiv 1000) now ?_ ?_ rfl
          · rw [reanchor_fold_vj (some (now.fdiv 1000)) w st.tracker
              (stmtResetCountsVoice st.users),
              if_pos (by simp [hany, isSome_resetVoice, hrow])]
          · rw [trackerGet_reanchor, htr]
            rfl
        | none =>
          have hvjn : getVoiceJoin st.users w = none := by
            cases hv : getVoiceJoin st.users w with
            | none => rfl
            | some j =>
              have hx := (h w).1.mp (by rw [hv]; rfl)
              rw [htr] at hx
              exact absurd hx (by simp)
          have hanyf : (st.tracker.any (fun p => p.1 == w)) = false := by
            cases hb : st.tracker.any (fun p => p.1 == w) with
            | false => rfl
            | true =>
              have hx := (trackerGet_isSome_iff_any st.tracker w).mpr hb
              rw [htr] at hx
              exact absurd hx (by simp)
          refine invariantAt_of_both_none _ w ?_ ?_
          · rw [reanchor_fold_vj (some (now.fdiv 1000)) w st.tracker
              (stmtResetCountsVoice st.users)]
            rw [if_neg (by simp [hanyf])]
            exact getVoiceJoin_resetVoice st.users w
          · rw [trackerGet_reanchor, htr]
            rfl

theorem readyUserReconcile_self_inv (now : Int) (st : GuildState) (u : Nat) (name : String) :
    invariantAt (readyUserReconcile now st (u, name)) u := by
  cases hv : (getRow st.users u).bind (fun r => r.voiceJoin) with
  | some j =>
    by_cases hj : j = 0
    · simp only [readyUserReconcile, hv, if_pos hj]
      refine invariantAt_of_both_some _ u (now.fdiv 1000) now ?_ ?_ rfl
      · rw [getVoiceJoin_setVoiceJoin_self, if_pos (getRow_isSome_upsert_self st.users u name)]
      · exact trackerGet_set_self _ _ _
    · simp only [readyUserReconcile, hv, if_neg hj]
      refine invariantAt_of_both_some _ u j (j * 1000) ?_ ?_ ?_
      · exact hv
      · exact trackerGet_set_self _ _ _
      · exact (Int.mul_fdiv_cancel j (by norm_num)).symm
  | none =>
    simp only [readyUserReconcile, hv]
    refine invariantAt_of_both_some _ u (now.fdiv 1000) now ?_ ?_ rfl
    · rw [getVoiceJoin_setVoiceJoin_self, if_pos (getRow_isSome_upsert_self st.users u name)]
    · exact trackerGet_set_self _ _ _

theorem readyReconcile_invariantAt_connected (now : Int) (u : Nat) :
    ∀ (l : List (Nat × String)) (st : GuildState), u ∈ l.map Prod.fst →
    invariantAt (l.foldl (readyUserReconcile now) st) u := by
  intro l
  induction l with
  | nil =>
    intro st h
    exact absurd h (by simp)
  | cons p ps ih =>
    intro st hmem
    simp only [List.foldl_cons]
    by_cases hrest : u ∈ ps.map Prod.fst
    · exact ih (readyUserReconcile now st p) hrest
    · have hup : u = p.1 := by
        rw [List.map_cons, List.mem_cons] at hmem
        cases hmem with
        | inl h => exact h
        | inr h => exact absurd h hrest
      subst hup
      have hstep : invariantAt (readyUserReconcile now st p) p.1 :=
        readyUserReconcile_self_inv now st p.1 p.2
      have hkeys : ∀ q ∈ ps, q.1 ≠ p.1 := by
        intro q hq hqu
        exact hrest (hqu ▸ List.mem_map_of_mem Prod.fst hq)
      have hpres := readyReconcile_preserves_untouched now p.1 ps
        (readyUserReconcile now st p) hkeys
      refine invariantAt_transfer (readyUserReconcile now st p) _ p.1 ?_ hpres.2 hstep
      unfold getVoiceJoin
      rw [hpres.1]

/-- C6 counterexample: a user joins voice (persisting a non-null
`voiceJoin`), the process dies, the user disconnects while the process is
down, and the process restarts with nobody connected.  Startup
reconciliation visits only currently-connected users, so the stale
non-null `voiceJoin` survives with no open tracker session — the claimed
invariant is false after the startup-reconciliation event. -/
theorem stale_voiceJoin_after_restart_counterexample :
    ¬ voiceInvariant
        (readyReconcile [] 200000
          { users := (voiceStateUpdate false 1 "a" (.join 100000)
              { users := [], tracker := [], config := none }).users,
            tracker := [],
            config := none }) := by
  intro h
  have h1 := (h 1).1.mp (by decide)
  exact absurd h1 (by decide)

/-- C6 (amended): the tracker/store correspondence — durable `voiceJoin`
non-null iff an in-memory session is open, the stored whole-second epoch
matching the session start — is preserved by every voice join, move and
leave event (for a move, the user is assumed to have a durable row, which
holds for any user whose session was opened by the handler or by startup
reconciliation) and by every finalize (of either kind); after startup
reconciliation it holds for every currently-connected user.  It does NOT
hold universally after startup reconciliation: a user who left while the
process was down keeps a stale non-null `voiceJoin` with no open session
(see the counterexample). -/
theorem voiceJoin_invariant_amended :
    (∀ (st : GuildState) (u : Nat) (name : String) (ev : VoiceEvent),
        voiceInvariant st →
        (∀ t jts, ev = VoiceEvent.move t jts → (getRow st.users u).isSome = true) →
        voiceInvariant (voiceStateUpdate false u name ev st))
    ∧ (∀ (env : PlatformEnv) (kind : LBKind) (now : Int) (st : GuildState),
        voiceInvariant st → voiceInvariant (finalizeAndResetLeaderboard env kind now st))
    ∧ (∀ (connected : List (Nat × String)) (now : Int) (st : GuildState) (u : Nat),
        u ∈ connected.map Prod.fst →
        invariantAt (readyReconcile connected now st) u) :=
  ⟨fun st u name ev h hmove => invariant_voiceStateUpdate st u name ev h hmove,
   fun env kind now st h => invariant_finalize env kind now st h,
   fun connected now st u hmem => readyReconcile_invariantAt_connected now u connected st hmem⟩

theorem voiceJoin_invariant_amended_witness :
    voiceInvariant { users := [], tracker := [], config := none }
    ∧ voiceInvariant (voiceStateUpdate false 1 "a" (.join 5000)
        { users := [], tracker := [], config := none })
    ∧ invariantAt (readyReconcile [(2, "b")] 7000
        { users := [], tracker := [], config := none }) 2 :=
  have hempty : voiceInvariant { users := [], tracker := [], config := none } :=
    fun u => invariantAt_of_both_none _ u rfl rfl
  ⟨hempty,
   voiceJoin_invariant_amended.1 { users := [], tracker := [], config := none } 1 "a"
     (.join 5000) hempty (fun t jts h => by cases h),
   voiceJoin_invariant_amended.2.2 [(2, "b")] 7000
     { users := [], tracker := [], config := none } 2 (by decide)⟩

/-! ### Ranking order (C1) -/

theorem adjustVoiceRow_row (tr : List (Nat × Int)) (now : Int) (r : UserRow) :
    (adjustVoiceRow tr now r).row = r := rfl

theorem adjustVoiceRow_total_tracked (tr : List (Nat × Int)) (now : Int) (r : UserRow)
    (s : Int) (h : trackerGet tr r.userId = some s) :
    (adjustVoiceRow tr now r).totalSeconds = r.voiceSeconds + (now - s).fdiv 1000 := by
  unfold adjustVoiceRow
  rw [h]

theorem adjustVoiceRow_total_idle (tr : List (Nat × Int)) (now : Int) (r : UserRow)
    (h1 : trackerGet tr r.userId = none) (h2 : r.voiceJoin = none) :
    (adjustVoiceRow tr now r).totalSeconds = r.voiceSeconds := by
  unfold adjustVoiceRow
  rw [h1, h2]

theorem mem_voiceLeaderboardRows_shape (users : List UserRow) (tr : List (Nat × Int))
    (now : Int) (x : VoiceRanked) (h : x ∈ voiceLeaderboardRows users tr now) :
    x = adjustVoiceRow tr now x.row := by
  unfold voiceLeaderboardRows at h
  rw [List.mem_mergeSort] at h
  obtain ⟨r, hr, hx⟩ := List.mem_map.mp h
  rw [← hx]
  rfl

theorem voiceLeaderboardRows_sorted (users : List UserRow) (tr : List (Nat × Int))
    (now : Int) :
    (voiceLeaderboardRows users tr now).Pairwise
      (fun a b => b.totalSeconds ≤ a.totalSeconds) := by
  have h : List.Pairwise
      (fun a b : VoiceRanked => (decide (b.totalSeconds ≤ a.totalSeconds)) = true)
      (voiceLeaderboardRows users tr now) := by
    unfold voiceLeaderboardRows
    refine List.sorted_mergeSort ?_ ?_ _
    · intro a b c h1 h2
      exact decide_eq_true (le_trans (of_decide_eq_true h2) (of_decide_eq_true h1))
    · intro a b
      rcases le_total b.totalSeconds a.totalSeconds with hh | hh <;> simp [hh]
  exact h.imp (fun hab => of_decide_eq_true hab)

theorem messageLeaderboardRows_sorted (users : List UserRow) :
    (messageLeaderboardRows users).Pairwise (fun a b => b.messages ≤ a.messages) := by
  have h : List.Pairwise
      (fun a b : UserRow => (decide (b.messages ≤ a.messages)) = true)
      (users.mergeSort (fun a b => decide (b.messages ≤ a.messages))) := by
    refine List.sorted_mergeSort ?_ ?_ users
    · intro a b c h1 h2
      exact decide_eq_true (le_trans (of_decide_eq_true h2) (of_decide_eq_true h1))
    · intro a b
      rcases le_total b.messages a.messages with hh | hh <;> simp [hh]
  unfold messageLeaderboardRows stmtGetTopMessages
  exact (h.imp (fun hab => of_decide_eq_true hab)).sublist (List.take_sublist _ _)

/-- C1: for every community and kind the displayed ranking is sorted
descending by the effective metric — `messages` for the message kind, the
open-session-adjusted `totalSeconds` for the voice kind (the durable order
is only the 100-candidate pre-filter; the second sort re-orders by the
adjusted totals).  In particular a user with zero durable seconds and an
open session of elapsed time `e = floor((now - s)/1000)` is placed
strictly above any user without open session or truthy `voiceJoin` whose
durable seconds are below `e`. -/
theorem ranking_sorted_desc (users : List UserRow) (tr : List (Nat × Int)) (now : Int) :
    (messageLeaderboardRows users).Pairwise (fun a b => b.messages ≤ a.messages)
    ∧ (voiceLeaderboardRows users tr now).Pairwise
        (fun a b => b.totalSeconds ≤ a.totalSeconds)
    ∧ (∀ (i j : Nat) (s : Int),
        i < (voiceLeaderboardRows users tr now).length →
        j < (voiceLeaderboardRows users tr now).length →
        ((voiceLeaderboardRows users tr now).getD i defaultRanked).row.voiceSeconds = 0 →
        trackerGet tr
            ((voiceLeaderboardRows users tr now).getD i defaultRanked).row.userId = some s →
        trackerGet tr
            ((voiceLeaderboardRows users tr now).getD j defaultRanked).row.userId = none →
        ((voiceLeaderboardRows users tr now).getD j defaultRanked).row.voiceJoin = none →
        ((voiceLeaderboardRows users tr now).getD j defaultRanked).row.voiceSeconds
          < (now - s).fdiv 1000 →
        i < j) := by
  refine ⟨messageLeaderboardRows_sorted users, voiceLeaderboardRows_sorted users tr now, ?_⟩
  intro i j s hi hj h0 htri htrj hvjj hlt
  rw [List.getD_eq_get (voiceLeaderboardRows users tr now) defaultRanked hi] at h0 htri
  rw [List.getD_eq_get (voiceLeaderboardRows users tr now) defaultRanked hj] at htrj hvjj hlt
  have hmi : (voiceLeaderboardRows users tr now).get ⟨i, hi⟩ ∈ voiceLeaderboardRows users tr now :=
    List.get_mem _ _ _
  have hmj : (voiceLeaderboardRows users tr now).get ⟨j, hj⟩ ∈ voiceLeaderboardRows users tr now :=
    List.get_mem _ _ _
  have hshapei := mem_voiceLeaderboardRows_shape users tr now _ hmi
  have hshapej := mem_voiceLeaderboardRows_shape users tr now _ hmj
  have htoti :
      ((voiceLeaderboardRows users tr now).get ⟨i, hi⟩).totalSeconds = (now - s).fdiv 1000 := by
    conv_lhs => rw [hshapei]
    rw [adjustVoiceRow_total_tracked _ _ _ s htri, h0, zero_add]
  have htotj :
      ((voiceLeaderboardRows users tr now).get ⟨j, hj⟩).totalSeconds < (now - s).fdiv 1000 := by
    have hx :
        ((voiceLeaderboardRows users tr now).get ⟨j, hj⟩).totalSeconds =
          ((voiceLeaderboardRows users tr now).get ⟨j, hj⟩).row.voiceSeconds := by
      conv_lhs => rw [hshapej]
      rw [adjustVoiceRow_total_idle _ _ _ htrj hvjj]
    rw [hx]
    exact hlt
  have hsorted := voiceLeaderboardRows_sorted users tr now
  rw [List.pairwise_iff_get] at hsorted
  by_contra hij
  have hcase : j < i ∨ j = i := by omega
  cases hcase with
  | inr heq =>
    subst heq
    rw [show ((voiceLeaderboardRows users tr now).get ⟨j, hj⟩) =
        ((voiceLeaderboardRows users tr now).get ⟨j, hi⟩) from rfl] at htoti
    rw [htoti] at htotj
    exact lt_irrefl _ htotj
  | inl hji =>
    have hR := hsorted ⟨j, hj⟩ ⟨i, hi⟩ hji
    rw [htoti] at hR
    exact absurd (lt_of_le_of_lt hR htotj) (lt_irrefl _)

unseal List.merge List.mergeSort in
theorem ranking_sorted_desc_witness :
    0 < (voiceLeaderboardRows
          [{ userId := 1, username := "a", messages := 0, voiceSeconds := 5, voiceJoin := none },
           { userId := 2, username := "b", messages := 0, voiceSeconds := 0, voiceJoin := none }]
          [(2, 0)] 10000).length
    ∧ 1 < (voiceLeaderboardRows
          [{ userId := 1, username := "a", messages := 0, voiceSeconds := 5, voiceJoin := none },
           { userId := 2, username := "b", messages := 0, voiceSeconds := 0, voiceJoin := none }]
          [(2, 0)] 10000).length
    ∧ ((voiceLeaderboardRows
          [{ userId := 1, username := "a", messages := 0, voiceSeconds := 5, voiceJoin := none },
           { userId := 2, username := "b", messages := 0, voiceSeconds := 0, voiceJoin := none }]
          [(2, 0)] 10000).getD 0 defaultRanked).row.voiceSeconds = 0
    ∧ trackerGet [(2, 0)]
        ((voiceLeaderboardRows
          [{ userId := 1, username := "a", messages := 0, voiceSeconds := 5, voiceJoin := none },
           { userId := 2, username := "b", messages := 0, voiceSeconds := 0, voiceJoin := none }]
          [(2, 0)] 10000).getD 0 defaultRanked).row.userId = some 0
    ∧ trackerGet [(2, 0)]
        ((voiceLeaderboardRows
          [{ userId := 1, username := "a", messages := 0, voiceSeconds := 5, voiceJoin := none },
           { userId := 2, username := "b", messages := 0, voiceSeconds := 0, voiceJoin := none }]
          [(2, 0)] 10000).getD 1 defaultRanked).row.userId = none
    ∧ ((voiceLeaderboardRows
          [{ userId := 1, username := "a", messages := 0, voiceSeconds := 5, voiceJoin := none },
           { userId := 2, username := "b", messages := 0, voiceSeconds := 0, voiceJoin := none }]
          [(2, 0)] 10000).getD 1 defaultRanked).row.voiceJoin = none
    ∧ ((voiceLeaderboardRows
          [{ userId := 1, username := "a", messages := 0, voiceSeconds := 5, voiceJoin := none },
           { userId := 2, username := "b", messages := 0, voiceSeconds := 0, voiceJoin := none }]
          [(2, 0)] 10000).getD 1 defaultRanked).row.voiceSeconds
        < ((10000 : Int) - 0).fdiv 1000
    ∧ (0 : Nat) < 1 :=
  ⟨by decide, by decide, by decide, by decide, by decide, by decide, by decide,
    (ranking_sorted_desc
      [{ userId := 1, username := "a", messages := 0, voiceSeconds := 5, voiceJoin := none },
       { userId := 2, username := "b", messages := 0, voiceSeconds := 0, voiceJoin := none }]
      [(2, 0)] 10000).2.2 0 1 0 (by decide) (by decide) (by decide) (by decide) (by decide)
      (by decide) (by decide)⟩
